import Mathlib

/-!
# Verification of the fea-rs lexer and lookup-compilation engine

A shallow embedding, in Lean 4, of the parts of the `fea-rs` FEA compiler
that the specification's claims are about:

* the byte lexer (`src/lexer.rs`),
* the syntax-tree builder (`src/token_tree.rs`),
* the lookup compilation engine (`src/compile/lookups.rs`),
* the class-definition builder (`src/compile/lookups/helpers.rs`).

Source text is modelled as a list of byte values (`List Nat`, each < 256 in
practice; the code compares bytes against explicit numerals exactly as the
Rust source does).  Rust `panic!` / failed `unwrap` / failed `assert` are
modelled by `Option`/`Except` results (`none` = abort).  Loops that the
source cannot bound are given explicit fuel; every other loop is proved
terminating.

A few types live in files of the repository that are not among the provided
sources (`token.rs`, `parse`, `token_tree/cursor.rs`, `compile/lookups/gsub.rs`,
`compile/lookups/gpos.rs`, `compile/lookups/contextual.rs`).  Definitions for
those carry a doc comment starting `Modelled from the spec:` and follow the
specification's wording; everything else is translated directly from the
Rust sources.
-/

set_option autoImplicit false

namespace FeaRs

/-! ## Token kinds

Modelled from the spec: the `Kind` enum lives in `token.rs`, which is not
among the provided sources.  The spec (§4.1) lists the token kinds the lexer
produces; the tree builder and lookup compiler additionally use node kinds
(`GlyphName`, `GlyphNameOrRange`, `GlyphRange`, the GSUB/GPOS rule kinds and
a root node kind).  Keyword kinds are abstracted: the keyword table is
represented by a classification function parameter (see `Lexer.nextToken`).
-/
inductive Kind where
  | eof
  | whitespace
  | comment
  | str
  | strUnterminated
  | numberDec
  | numberHex
  | numberHexEmpty
  | numberFloat
  | semi
  | comma
  | backslash
  | hyphen
  | eq
  | lBrace
  | rBrace
  | lSquare
  | rSquare
  | lParen
  | rParen
  | lAngle
  | rAngle
  | singleQuote
  | namedGlyphClass
  | ident
  | glyphName
  | glyphNameOrRange
  | glyphRange
  | sourceFile
  | gsubType1
  | gsubType2
  | gsubType3
  | gsubType4
  | gsubType5
  | gsubType6
  | gsubType7
  | gsubType8
  | gposType1
  | gposType2
  | gposType3
  | gposType4
  | gposType5
  | gposType6
  | gposType7
  | gposType8
  | gposNode
  deriving DecidableEq, Repr

namespace Lexer

/-- Rust `const EOF: u8 = 0x0;` (lexer.rs line 10). -/
def EOF : Nat := 0

/-- Rust `is_ascii_whitespace` (lexer.rs lines 195-197):
`byte == b' ' || (0x9..=0xD).contains(&byte)`. -/
def isAsciiWhitespace (byte : Nat) : Bool :=
  byte == 32 || (9 ≤ byte && byte ≤ 13)

/-- Rust `is_special` (lexer.rs lines 183-189): the reserved punctuation ranges
`(39..=45) || (59..=64) || (91..=93) || 123 || 125`. -/
def isSpecial (byte : Nat) : Bool :=
  (39 ≤ byte && byte ≤ 45) || (59 ≤ byte && byte ≤ 64) ||
    (91 ≤ byte && byte ≤ 93) || byte == 123 || byte == 125

/-- Rust `u8::is_ascii_digit`: `b'0'..=b'9'`. -/
def isAsciiDigit (byte : Nat) : Bool := 48 ≤ byte && byte ≤ 57

/-- Rust `u8::is_ascii_hexdigit`: digits, `a..=f`, `A..=F`. -/
def isAsciiHexdigit (byte : Nat) : Bool :=
  isAsciiDigit byte || (97 ≤ byte && byte ≤ 102) || (65 ≤ byte && byte ≤ 70)

/-- Rust `Lexer::nth` (lexer.rs lines 27-33): the byte at `pos + index`, or `EOF`
past the end of the input. -/
def nth (input : List Nat) (pos index : Nat) : Nat :=
  (input.get? (pos + index)).getD EOF

/-- The position after `Lexer::bump` (lexer.rs lines 35-40): the position
advances only when a byte is actually available. -/
def bumpPos (input : List Nat) (pos : Nat) : Nat :=
  if pos < input.length then pos + 1 else pos

theorem nth_ne_EOF_lt {input : List Nat} {pos : Nat}
    (h : nth input pos 0 ≠ EOF) : pos < input.length := by
  by_contra hlt
  apply h
  simp only [nth, Nat.add_zero, EOF]
  rw [List.get?_eq_none.2 (Nat.le_of_not_lt hlt)]
  rfl

theorem bumpPos_of_ne_EOF {input : List Nat} {pos : Nat}
    (h : nth input pos 0 ≠ EOF) : bumpPos input pos = pos + 1 := by
  simp [bumpPos, nth_ne_EOF_lt h]

/-- Rust `Lexer::whitespace` (lexer.rs lines 77-82): advance while the next byte
is ASCII whitespace.  Terminates because whitespace bytes are nonzero, so the
guard can only hold strictly inside the input. -/
def whitespaceLoop (input : List Nat) (pos : Nat) : Nat :=
  if h : isAsciiWhitespace (nth input pos 0) then
    whitespaceLoop input (pos + 1)
  else pos
termination_by input.length - pos
decreasing_by
  have hne : nth input pos 0 ≠ EOF := by
    intro h0; rw [h0] at h; simp [isAsciiWhitespace, EOF] at h
  have := nth_ne_EOF_lt hne
  omega

/-- Rust `Lexer::comment` (lexer.rs lines 84-89):
`while [b'\n', EOF].contains(&self.nth(0)) { self.bump(); }`.
The guard keeps looping while the next byte IS a newline or the EOF
sentinel; at the end of the input `bump` no longer advances, so the loop
need not terminate.  It is therefore given explicit fuel; `none` models
divergence (no amount of fuel suffices). -/
def commentLoop (input : List Nat) (pos : Nat) : Nat → Option Nat
  | 0 => none
  | fuel + 1 =>
    if nth input pos 0 == 10 || nth input pos 0 == EOF then
      commentLoop input (bumpPos input pos) fuel
    else some pos

/-- Rust `Lexer::string` (lexer.rs lines 91-104): scan to the closing quote
(consuming it, kind `String`) or to EOF (kind `StringUnterminated`). -/
def stringLoop (input : List Nat) (pos : Nat) : Kind × Nat :=
  if nth input pos 0 == 34 then (Kind.str, bumpPos input pos)
  else if h : nth input pos 0 == EOF then (Kind.strUnterminated, pos)
  else stringLoop input (pos + 1)
termination_by input.length - pos
decreasing_by
  have hne : nth input pos 0 ≠ EOF := by simpa using h
  have := nth_ne_EOF_lt hne
  omega

/-- Rust `Lexer::eat_hex_digits` (lexer.rs lines 127-131). -/
def eatHexDigits (input : List Nat) (pos : Nat) : Nat :=
  if h : isAsciiHexdigit (nth input pos 0) then
    eatHexDigits input (pos + 1)
  else pos
termination_by input.length - pos
decreasing_by
  have hne : nth input pos 0 ≠ EOF := by
    intro h0; rw [h0] at h; simp [isAsciiHexdigit, isAsciiDigit, EOF] at h
  have := nth_ne_EOF_lt hne
  omega

/-- Rust `Lexer::eat_decimal_digits` (lexer.rs lines 133-137). -/
def eatDecimalDigits (input : List Nat) (pos : Nat) : Nat :=
  if h : isAsciiDigit (nth input pos 0) then
    eatDecimalDigits input (pos + 1)
  else pos
termination_by input.length - pos
decreasing_by
  have hne : nth input pos 0 ≠ EOF := by
    intro h0; rw [h0] at h; simp [isAsciiDigit, EOF] at h
  have := nth_ne_EOF_lt hne
  omega

/-- Rust `Lexer::number` (lexer.rs lines 106-125). -/
def numberScan (input : List Nat) (pos : Nat) (leadingZero : Bool) : Kind × Nat :=
  if leadingZero && (nth input pos 0 == 120 || nth input pos 0 == 88) then
    let pos := bumpPos input pos
    if isAsciiHexdigit (nth input pos 0) then
      (Kind.numberHex, eatHexDigits input pos)
    else (Kind.numberHexEmpty, pos)
  else
    let pos := eatDecimalDigits input pos
    if nth input pos 0 == 46 then
      (Kind.numberFloat, eatDecimalDigits input (bumpPos input pos))
    else (Kind.numberDec, pos)

/-- Rust `Lexer::eat_ident` (lexer.rs lines 144-155): eat bytes until EOF,
whitespace, or a special byte; hyphens are allowed to continue the body. -/
def eatIdent (input : List Nat) (pos : Nat) : Nat :=
  if h : nth input pos 0 = EOF then pos
  else if isAsciiWhitespace (nth input pos 0) then pos
  else if nth input pos 0 == 45 then eatIdent input (pos + 1)
  else if isSpecial (nth input pos 0) then pos
  else eatIdent input (pos + 1)
termination_by input.length - pos
decreasing_by
  all_goals have := nth_ne_EOF_lt h
  all_goals omega

/-- A lexer state: `Lexer { input, pos, after_backslash }` (lexer.rs
lines 12-16). -/
structure LexState where
  input : List Nat
  pos : Nat
  afterBackslash : Bool
  deriving Repr

/-- A lexed token: `Token { len, kind }`. -/
structure LexToken where
  len : Nat
  kind : Kind
  deriving DecidableEq, Repr

/-- Rust `Lexer::ident` (lexer.rs lines 158-168): eat an identifier body; after a
backslash force kind `Ident`, otherwise consult the keyword table (the
parameter `kw` stands for `Kind::from_keyword`, defined in the absent
`token.rs`). -/
def identScan (kw : List Nat → Option Kind) (input : List Nat)
    (afterBackslash : Bool) (pos : Nat) : Kind × Nat :=
  let startPos := pos - 1
  let endPos := eatIdent input pos
  if afterBackslash then (Kind.ident, endPos)
  else
    let rawToken := (input.drop startPos).take (endPos - startPos)
    ((kw rawToken).getD Kind.ident, endPos)

/-- Rust `Lexer::next_token` (lexer.rs lines 42-75).  The result is `none` only
when the comment loop diverges (see `commentLoop`).  `kw` stands for the
keyword table `Kind::from_keyword` of the absent `token.rs`. -/
def nextToken (kw : List Nat → Option Kind) (st : LexState) (fuel : Nat) :
    Option (LexToken × LexState) :=
  let startPos := st.pos
  let first := nth st.input st.pos 0
  let pos1 := bumpPos st.input st.pos
  let dispatch : Option (Kind × Nat) :=
    if first == EOF then some (Kind.eof, pos1)
    else if isAsciiWhitespace first then some (Kind.whitespace, whitespaceLoop st.input pos1)
    else if first == 35 then (commentLoop st.input pos1 fuel).map (Kind.comment, ·)
    else if first == 34 then some (stringLoop st.input pos1)
    else if first == 48 then some (numberScan st.input pos1 true)
    else if 49 ≤ first && first ≤ 57 then some (numberScan st.input pos1 false)
    else if first == 59 then some (Kind.semi, pos1)
    else if first == 44 then some (Kind.comma, pos1)
    else if first == 64 then some (Kind.namedGlyphClass, eatIdent st.input pos1)
    else if first == 92 then some (Kind.backslash, pos1)
    else if first == 45 then some (Kind.hyphen, pos1)
    else if first == 61 then some (Kind.eq, pos1)
    else if first == 123 then some (Kind.lBrace, pos1)
    else if first == 125 then some (Kind.rBrace, pos1)
    else if first == 91 then some (Kind.lSquare, pos1)
    else if first == 93 then some (Kind.rSquare, pos1)
    else if first == 40 then some (Kind.lParen, pos1)
    else if first == 41 then some (Kind.rParen, pos1)
    else if first == 60 then some (Kind.lAngle, pos1)
    else if first == 62 then some (Kind.rAngle, pos1)
    else if first == 39 then some (Kind.singleQuote, pos1)
    else some (identScan kw st.input st.afterBackslash pos1)
  dispatch.map fun (kind, endPos) =>
    (⟨endPos - startPos, kind⟩,
      ⟨st.input, endPos, kind == Kind.backslash⟩)

end Lexer

end FeaRs

namespace FeaRs

open Lexer

/-- The comment loop never terminates when `#` ends the input: at the end of
the input `nth` yields the EOF sentinel, which satisfies the loop guard,
while `bump` no longer advances the position. -/
theorem commentLoop_stuck_at_end (input : List Nat) (pos : Nat)
    (hpos : input.length ≤ pos) :
    ∀ fuel, commentLoop input pos fuel = none := by
  intro fuel
  induction fuel with
  | zero => rfl
  | succ n ih =>
    have hnth : nth input pos 0 = 0 := by
      simp only [nth, Nat.add_zero]
      rw [List.get?_eq_none.2 hpos]
      rfl
    have hbump : bumpPos input pos = pos := by
      simp [bumpPos, Nat.not_lt.2 hpos]
    simp only [commentLoop, hnth, hbump]
    simpa using ih

/-- C4: the claim says every `next_token` call terminates and the token
stream tiles the whole input.  The code violates this: on the input `"#"`
(a comment opener as the last byte) `next_token` never returns, for any
amount of fuel — the comment loop's guard `[b'\n', EOF].contains(..)` is
satisfied by the EOF sentinel forever while `bump` cannot advance. -/
theorem nextToken_diverges_on_lone_hash (kw : List Nat → Option Kind) (fuel : Nat) :
    nextToken kw ⟨[35], 0, false⟩ fuel = none := by
  have h : commentLoop [35] 1 fuel = none :=
    commentLoop_stuck_at_end [35] 1 (by simp) fuel
  simp [nextToken, nth, bumpPos, h, isAsciiWhitespace, EOF]

/-- C1: the claim says a `Comment` token spans from `#` through every byte up
to (but not including) the next newline.  On input `"#a\n"` the code instead
emits a `Comment` token of length 1 covering only the `#`: the loop guard
`while [b'\n', EOF].contains(&self.nth(0))` stops immediately at `'a'`
(the guard is inverted with respect to the specified behavior). -/
theorem comment_token_stops_at_first_nonnewline :
    nextToken (fun _ => none) ⟨[35, 97, 10], 0, false⟩ 8 =
      some (⟨1, Kind.comment⟩, ⟨[35, 97, 10], 1, false⟩) := by
  rfl

/-! ## Lookup identifiers and `split_lookups` -/

/-- Rust `LookupId` (lookups.rs lines 103-111): a GPOS index, a GSUB index, or
the Empty id used for a named block with no rules. -/
inductive LookupId where
  | gpos (idx : Nat)
  | gsub (idx : Nat)
  | empty
  deriving DecidableEq, Repr

namespace LookupId

/-- Rust `LookupId::adjust_if_gsub` (lookups.rs lines 616-620): bump a GSUB index
by `value`; leave GPOS and Empty ids untouched. -/
def adjust_if_gsub (self : LookupId) (value : Nat) : LookupId :=
  match self with
  | gsub idx => gsub (idx + value)
  | other => other

/-- Rust `LookupId::to_gpos_id_or_die` (lookups.rs lines 622-625): `none` models
both the `panic!` on a non-GPOS id and the failed `try_into().unwrap()` when
the index does not fit in 16 bits. -/
def to_gpos_id_or_die : LookupId → Option Nat
  | gpos x => if x < 65536 then some x else none
  | _ => none

/-- Rust `LookupId::to_gsub_id_or_die` (lookups.rs lines 627-630). -/
def to_gsub_id_or_die : LookupId → Option Nat
  | gsub x => if x < 65536 then some x else none
  | _ => none

/-- Rust `matches!(x, LookupId::Gpos(_))` as used by `split_lookups`. -/
def isGpos : LookupId → Bool
  | gpos _ => true
  | _ => false

/-- Theorem-side projection: the index of a GPOS id. -/
def gposIdx : LookupId → Option Nat
  | gpos k => some k
  | _ => none

/-- Theorem-side projection: the index of a GSUB id. -/
def gsubIdx : LookupId → Option Nat
  | gsub k => some k
  | _ => none

/-- Theorem-side predicate: the id's index fits in 16 bits. -/
def fitsU16 : LookupId → Bool
  | gpos k => k < 65536
  | gsub k => k < 65536
  | empty => true

end LookupId

/-- The `for lookup in lookups` loop of `split_lookups` (lookups.rs lines
594-602): push GPOS ids into the first buffer, GSUB ids into the second,
skip Empty. -/
def splitLoop : List LookupId → List Nat → List Nat → Option (List Nat × List Nat)
  | [], gposAcc, gsubAcc => some (gposAcc, gsubAcc)
  | l :: rest, gposAcc, gsubAcc =>
    match l with
    | .gpos _ =>
      match l.to_gpos_id_or_die with
      | some i => splitLoop rest (gposAcc ++ [i]) gsubAcc
      | none => none
    | .gsub _ =>
      match l.to_gsub_id_or_die with
      | some i => splitLoop rest gposAcc (gsubAcc ++ [i])
      | none => none
    | .empty => splitLoop rest gposAcc gsubAcc

/-- The fast-path test seed of `split_lookups` (lookups.rs line 573):
`matches!(lookups.first(), Some(LookupId::Gpos(_)))`. -/
def firstIsGpos (lookups : List LookupId) : Bool :=
  match lookups.head? with
  | some (LookupId.gpos _) => true
  | _ => false

/-- Rust `lookups.iter().map(|x| x.to_..._or_die()).collect()` — a panic in any
element aborts the whole collection. -/
def collectIds (f : LookupId → Option Nat) : List LookupId → Option (List Nat)
  | [] => some []
  | x :: rest =>
    match f x with
    | none => none
    | some i => (collectIds f rest).map (i :: ·)

/-- Rust `split_lookups` (lookups.rs lines 566-605): split a list of lookup ids
into (GPOS, GSUB) 16-bit index lists.  The fast path converts the whole list
with `to_gpos_id_or_die` / `to_gsub_id_or_die` when every element agrees
with the first on `matches!(_, Gpos(_))`; the slow path dispatches per
element and skips Empty. -/
def split_lookups (lookups : List LookupId) : Option (List Nat × List Nat) :=
  if lookups.isEmpty then some ([], [])
  else
    if lookups.all (fun x => x.isGpos == firstIsGpos lookups) then
      if firstIsGpos lookups then
        (collectIds LookupId.to_gpos_id_or_die lookups).map (fun g => (g, []))
      else
        (collectIds LookupId.to_gsub_id_or_die lookups).map (fun s => ([], s))
    else
      splitLoop lookups [] []

theorem collectIds_gpos (L : List LookupId)
    (hall : ∀ x ∈ L, x.isGpos = true) (hfits : ∀ x ∈ L, x.fitsU16 = true) :
    collectIds LookupId.to_gpos_id_or_die L = some (L.filterMap LookupId.gposIdx) := by
  induction L with
  | nil => rfl
  | cons a rest ih =>
    obtain ⟨k, rfl⟩ : ∃ k, a = LookupId.gpos k := by
      have := hall a (by simp)
      cases a <;> simp_all [LookupId.isGpos]
    have hk : k < 65536 := by
      have := hfits _ (List.mem_cons_self _ _)
      simpa [LookupId.fitsU16] using this
    have ih' := ih (fun x hx => hall x (List.mem_cons_of_mem _ hx))
      (fun x hx => hfits x (List.mem_cons_of_mem _ hx))
    simp [collectIds, LookupId.to_gpos_id_or_die, hk, ih',
      List.filterMap_cons, LookupId.gposIdx]

theorem collectIds_gsub (L : List LookupId)
    (hall : ∀ x ∈ L, ∃ k, x = LookupId.gsub k) (hfits : ∀ x ∈ L, x.fitsU16 = true) :
    collectIds LookupId.to_gsub_id_or_die L = some (L.filterMap LookupId.gsubIdx) := by
  induction L with
  | nil => rfl
  | cons a rest ih =>
    obtain ⟨k, rfl⟩ := hall a (by simp)
    have hk : k < 65536 := by
      have := hfits _ (List.mem_cons_self _ _)
      simpa [LookupId.fitsU16] using this
    have ih' := ih (fun x hx => hall x (List.mem_cons_of_mem _ hx))
      (fun x hx => hfits x (List.mem_cons_of_mem _ hx))
    simp [collectIds, LookupId.to_gsub_id_or_die, hk, ih',
      List.filterMap_cons, LookupId.gsubIdx]

theorem splitLoop_spec (L : List LookupId) :
    ∀ gposAcc gsubAcc, (∀ x ∈ L, x.fitsU16 = true) →
    splitLoop L gposAcc gsubAcc =
      some (gposAcc ++ L.filterMap LookupId.gposIdx,
            gsubAcc ++ L.filterMap LookupId.gsubIdx) := by
  induction L with
  | nil => intro g s _; simp [splitLoop]
  | cons a rest ih =>
    intro g s hfits
    have ha := hfits a (by simp)
    have hrest := fun x hx => hfits x (List.mem_cons_of_mem _ hx)
    cases a with
    | gpos k =>
      have hk : k < 65536 := by simpa [LookupId.fitsU16] using ha
      simp [splitLoop, LookupId.to_gpos_id_or_die, hk, ih _ _ hrest,
        List.filterMap_cons, LookupId.gposIdx, LookupId.gsubIdx]
    | gsub k =>
      have hk : k < 65536 := by simpa [LookupId.fitsU16] using ha
      simp [splitLoop, LookupId.to_gsub_id_or_die, hk, ih _ _ hrest,
        List.filterMap_cons, LookupId.gposIdx, LookupId.gsubIdx]
    | empty =>
      simp [splitLoop, ih _ _ hrest, List.filterMap_cons,
        LookupId.gposIdx, LookupId.gsubIdx]

/-- C3 (counterexample): on the list `[Empty]`, `split_lookups` does not
return normally — the fast path takes the all-GSUB branch (Empty matches
`!Gpos`) and `to_gsub_id_or_die` panics on Empty.  The claim promised a
normal return with Empty elements appearing in neither output. -/
theorem split_lookups_panics_on_lone_empty :
    split_lookups [LookupId.empty] = none := by
  rfl

/-- C3 (amended): `split_lookups L` returns normally and partitions `L` —
the GPOS output is exactly the indices of the Gpos elements in order and
the GSUB output exactly those of the Gsub elements, Empty contributing to
neither — provided every index fits in 16 bits and `L` does not consist
solely of Gsub/Empty elements with at least one Empty present (in that case
the fast path feeds an Empty to `to_gsub_id_or_die`, which panics). -/
theorem split_lookups_partitions (L : List LookupId)
    (hfits : L.all LookupId.fitsU16 = true)
    (hok : (L.any LookupId.isGpos || !(decide (LookupId.empty ∈ L))) = true) :
    split_lookups L =
      some (L.filterMap LookupId.gposIdx, L.filterMap LookupId.gsubIdx) := by
  have hfits' : ∀ x ∈ L, x.fitsU16 = true := by
    intro x hx; exact List.all_eq_true.1 hfits x hx
  by_cases hnil : L = []
  · subst hnil; rfl
  have hne : ¬(L.isEmpty = true) := by simp [List.isEmpty_iff, hnil]
  unfold split_lookups
  rw [if_neg hne]
  by_cases hAll : L.all (fun x => x.isGpos == firstIsGpos L) = true
  · rw [if_pos hAll]
    by_cases hf : firstIsGpos L = true
    · -- all elements are GPOS
      rw [if_pos hf]
      have hallgpos : ∀ x ∈ L, x.isGpos = true := by
        intro x hx
        have := List.all_eq_true.1 hAll x hx
        rw [hf] at this
        simpa using this
      have hgsubEmpty : L.filterMap LookupId.gsubIdx = [] := by
        rw [List.filterMap_eq_nil_iff]
        intro x hx
        have := hallgpos x hx
        cases x <;> simp_all [LookupId.isGpos, LookupId.gsubIdx]
      rw [collectIds_gpos L hallgpos hfits', hgsubEmpty]
      rfl
    · -- all elements are non-GPOS; by `hok` no Empty, hence all GSUB
      rw [if_neg hf]
      have hnogpos : ∀ x ∈ L, x.isGpos = false := by
        intro x hx
        have := List.all_eq_true.1 hAll x hx
        rw [Bool.not_eq_true] at hf
        rw [hf] at this
        simpa using this
      have hnoempty : LookupId.empty ∉ L := by
        rcases Bool.or_eq_true_iff.1 hok with hany | hnc
        · exfalso
          obtain ⟨x, hx, hgp⟩ := List.any_eq_true.1 hany
          rw [hnogpos x hx] at hgp
          exact Bool.false_ne_true hgp
        · simpa using hnc
      have hallgsub : ∀ x ∈ L, ∃ k, x = LookupId.gsub k := by
        intro x hx
        cases x with
        | gpos k => exact absurd (hnogpos _ hx) (by simp [LookupId.isGpos])
        | gsub k => exact ⟨k, rfl⟩
        | empty => exact absurd hx hnoempty
      have hgposEmpty : L.filterMap LookupId.gposIdx = [] := by
        rw [List.filterMap_eq_nil_iff]
        intro x hx
        obtain ⟨k, rfl⟩ := hallgsub x hx
        rfl
      rw [collectIds_gsub L hallgsub hfits', hgposEmpty]
      rfl
  · -- slow path
    rw [if_neg hAll]
    simpa using splitLoop_spec L [] [] hfits'

/-- Witness for C3 (amended), at the spec's S5 scenario:
`[Gpos(2), Gsub(0), Gpos(5), Gsub(1)]` splits into `([2,5], [0,1])`. -/
theorem split_lookups_partitions_witness :
    split_lookups [LookupId.gpos 2, LookupId.gsub 0, LookupId.gpos 5, LookupId.gsub 1] =
      some ([2, 5], [0, 1]) := by
  have h := split_lookups_partitions
    [LookupId.gpos 2, LookupId.gsub 0, LookupId.gpos 5, LookupId.gsub 1]
    (by decide) (by decide)
  simpa using h

/-! ## Lookup builders

`LookupBuilder<T>` and the lookup enums are translated from
`compile/lookups.rs`.  The concrete subtable builder types live in
`compile/lookups/gsub.rs`, `gpos.rs` and `contextual.rs`, which are not
among the provided sources; each is modelled from the spec as the ordered
record of the insertions the spec describes for it. -/

/-- Rust `GlyphOrClass` (types.rs lines 28-32): a single glyph id or an ordered
glyph class. -/
inductive GlyphOrClass where
  | glyph (id : Nat)
  | cls (ids : List Nat)
  deriving DecidableEq, Repr

/-- Rust `LookupBuilder<T>` (lookups.rs lines 63-68): lookup flags (a 16-bit
bit-set, modelled as `Nat`), optional mark-filter-set id, and the ordered
subtable builders. -/
structure LookupBuilder (T : Type) where
  flags : Nat
  mark_set : Option Nat
  subtables : List T
  deriving DecidableEq, Repr

namespace LookupBuilder

/-- Rust `LookupBuilder::new` (lookups.rs lines 135-141): starts with exactly one
default subtable. -/
def new {T : Type} [Inhabited T] (flags : Nat) (mark_set : Option Nat) :
    LookupBuilder T :=
  ⟨flags, mark_set, [default]⟩

/-- Rust `LookupBuilder::new_with_lookups` (lookups.rs lines 143-153). -/
def new_with_lookups {T : Type} (flags : Nat) (mark_set : Option Nat)
    (subtables : List T) : LookupBuilder T :=
  ⟨flags, mark_set, subtables⟩

/-- Rust `last_mut().unwrap()` followed by an in-place update of the last
subtable, as every rule-insertion entrypoint does; `none` models the
`unwrap` panic when there is no subtable. -/
def modifyLast {T : Type} (b : LookupBuilder T) (f : T → T) :
    Option (LookupBuilder T) :=
  match b.subtables.getLast? with
  | none => none
  | some last => some {b with subtables := b.subtables.dropLast ++ [f last]}

/-- Rust `LookupBuilder::force_subtable_break` (lookups.rs lines 160-162):
append a fresh default subtable. -/
def force_subtable_break {T : Type} [Inhabited T] (b : LookupBuilder T) :
    LookupBuilder T :=
  {b with subtables := b.subtables ++ [default]}

end LookupBuilder

/-- Modelled from the spec: `SingleSubBuilder` (gsub.rs, absent): the
one-to-one substitution map, recorded in insertion order (§4.6 step 1). -/
structure SingleSubBuilder where
  items : List (Nat × Nat)
  deriving DecidableEq, Repr

instance : Inhabited SingleSubBuilder := ⟨⟨[]⟩⟩

/-- Modelled from the spec: `SingleSubBuilder::insert`. -/
def SingleSubBuilder.insert (b : SingleSubBuilder) (target replacement : Nat) :
    SingleSubBuilder :=
  ⟨b.items ++ [(target, replacement)]⟩

/-- Modelled from the spec: `SingleSubBuilder::is_empty`. -/
def SingleSubBuilder.is_empty (b : SingleSubBuilder) : Bool := b.items.isEmpty

/-- Modelled from the spec: `AlternateSubBuilder` (gsub.rs, absent): the
one-to-many alternates map (§4.6 step 1). -/
structure AlternateSubBuilder where
  items : List (Nat × List Nat)
  deriving DecidableEq, Repr

instance : Inhabited AlternateSubBuilder := ⟨⟨[]⟩⟩

/-- Modelled from the spec: `AlternateSubBuilder::insert`. -/
def AlternateSubBuilder.insert (b : AlternateSubBuilder) (target : Nat)
    (alts : List Nat) : AlternateSubBuilder :=
  ⟨b.items ++ [(target, alts)]⟩

/-- Modelled from the spec: `AlternateSubBuilder::is_empty`. -/
def AlternateSubBuilder.is_empty (b : AlternateSubBuilder) : Bool := b.items.isEmpty

/-- Modelled from the spec: `MultipleSubBuilder` (gsub.rs, absent): the
one-to-sequence substitution map. -/
structure MultipleSubBuilder where
  items : List (Nat × List Nat)
  deriving DecidableEq, Repr

instance : Inhabited MultipleSubBuilder := ⟨⟨[]⟩⟩

/-- Modelled from the spec: `LigatureSubBuilder` (gsub.rs, absent): the
sequence-to-one substitution map. -/
structure LigatureSubBuilder where
  items : List (List Nat × Nat)
  deriving DecidableEq, Repr

instance : Inhabited LigatureSubBuilder := ⟨⟨[]⟩⟩

/-- Modelled from the spec: `ReverseChainBuilder` (contextual.rs, absent):
reverse chaining single substitution rules. -/
structure ReverseChainBuilder where
  rules : List (List GlyphOrClass × List (Nat × Nat) × List GlyphOrClass)
  deriving DecidableEq, Repr

instance : Inhabited ReverseChainBuilder := ⟨⟨[]⟩⟩

/-- Modelled from the spec: a GPOS value record (types/metrics.rs, absent):
placement and advance adjustments. -/
structure ValueRecord where
  xPlacement : Int
  yPlacement : Int
  xAdvance : Int
  yAdvance : Int
  deriving DecidableEq, Repr

/-- Modelled from the spec: an anchor point (types/metrics.rs, absent). -/
structure AnchorTable where
  x : Int
  y : Int
  deriving DecidableEq, Repr

/-- Modelled from the spec: `SinglePosBuilder` (gpos.rs, absent). -/
structure SinglePosBuilder where
  items : List (Nat × ValueRecord)
  deriving DecidableEq, Repr

instance : Inhabited SinglePosBuilder := ⟨⟨[]⟩⟩

/-- Modelled from the spec: `PairPosBuilder` (gpos.rs, absent). -/
structure PairPosBuilder where
  pairs : List (Nat × ValueRecord × Nat × ValueRecord)
  classPairs : List (List Nat × ValueRecord × List Nat × ValueRecord)
  deriving DecidableEq, Repr

instance : Inhabited PairPosBuilder := ⟨⟨[], []⟩⟩

/-- Modelled from the spec: `CursivePosBuilder` (gpos.rs, absent). -/
structure CursivePosBuilder where
  items : List (Nat × Option AnchorTable × Option AnchorTable)
  deriving DecidableEq, Repr

instance : Inhabited CursivePosBuilder := ⟨⟨[]⟩⟩

/-- Modelled from the spec: `MarkToBaseBuilder` (gpos.rs, absent): the
observed (base glyph, mark glyph) attachment records. -/
structure MarkToBaseBuilder where
  baseGlyphs : List Nat
  markGlyphs : List Nat
  deriving DecidableEq, Repr

instance : Inhabited MarkToBaseBuilder := ⟨⟨[], []⟩⟩

/-- Modelled from the spec: `MarkToLigBuilder` (gpos.rs, absent). -/
structure MarkToLigBuilder where
  ligGlyphs : List Nat
  markGlyphs : List Nat
  deriving DecidableEq, Repr

instance : Inhabited MarkToLigBuilder := ⟨⟨[], []⟩⟩

/-- Modelled from the spec: `MarkToMarkBuilder` (gpos.rs, absent). -/
structure MarkToMarkBuilder where
  mark1Glyphs : List Nat
  mark2Glyphs : List Nat
  deriving DecidableEq, Repr

instance : Inhabited MarkToMarkBuilder := ⟨⟨[], []⟩⟩

/-- Modelled from the spec: one contextual rule (contextual.rs, absent) —
the triple of backtrack sequence, input sequence with per-position nested
lookup references, and lookahead sequence (§3, §4.5). -/
structure ContextRule where
  backtrack : List GlyphOrClass
  input : List (GlyphOrClass × List LookupId)
  lookahead : List GlyphOrClass
  deriving DecidableEq, Repr

/-- Modelled from the spec: the contextual / chain-contextual subtable
builder (contextual.rs, absent); one subtable holds an ordered list of
rules.  It stands for `SubContextBuilder`, `SubChainContextBuilder`,
`PosContextBuilder` and `PosChainContextBuilder` alike (the four are
field-for-field identical wrappers related by `From` conversions). -/
structure ContextBuilder where
  rules : List ContextRule
  deriving DecidableEq, Repr

instance : Inhabited ContextBuilder := ⟨⟨[]⟩⟩

/-- Modelled from the spec: `bump_all_lookup_ids` (contextual.rs, absent):
"rewrites every nested `LookupId` embedded in contextual subtables by the
same constant" (I1, §4.6 step 3), using `LookupId::adjust_if_gsub`. -/
def ContextBuilder.bump_all_lookup_ids (b : ContextBuilder) (n : Nat) :
    ContextBuilder :=
  ⟨b.rules.map fun r =>
    { r with input := r.input.map fun gi => (gi.1, gi.2.map (·.adjust_if_gsub n)) }⟩

/-- Rust `SubstitutionLookup` (lookups.rs lines 84-93). -/
inductive SubstitutionLookup where
  | single (b : LookupBuilder SingleSubBuilder)
  | multiple (b : LookupBuilder MultipleSubBuilder)
  | alternate (b : LookupBuilder AlternateSubBuilder)
  | ligature (b : LookupBuilder LigatureSubBuilder)
  | contextual (b : LookupBuilder ContextBuilder)
  | chainedContextual (b : LookupBuilder ContextBuilder)
  | reverse (b : LookupBuilder ReverseChainBuilder)
  deriving DecidableEq, Repr

/-- Rust `PositionLookup` (lookups.rs lines 70-82). -/
inductive PositionLookup where
  | single (b : LookupBuilder SinglePosBuilder)
  | pair (b : LookupBuilder PairPosBuilder)
  | cursive (b : LookupBuilder CursivePosBuilder)
  | markToBase (b : LookupBuilder MarkToBaseBuilder)
  | markToLig (b : LookupBuilder MarkToLigBuilder)
  | markToMark (b : LookupBuilder MarkToMarkBuilder)
  | contextual (b : LookupBuilder ContextBuilder)
  | chainedContextual (b : LookupBuilder ContextBuilder)
  deriving DecidableEq, Repr

/-- Rust `PositionLookup::force_subtable_break` (lookups.rs lines 185-198). -/
def PositionLookup.force_subtable_break : PositionLookup → PositionLookup
  | .single l => .single l.force_subtable_break
  | .pair l => .pair l.force_subtable_break
  | .cursive l => .cursive l.force_subtable_break
  | .markToBase l => .markToBase l.force_subtable_break
  | .markToLig l => .markToLig l.force_subtable_break
  | .markToMark l => .markToMark l.force_subtable_break
  | .contextual l => .contextual l.force_subtable_break
  | .chainedContextual l => .chainedContextual l.force_subtable_break

/-- Rust `SubstitutionLookup::force_subtable_break` (lookups.rs lines 200-212). -/
def SubstitutionLookup.force_subtable_break : SubstitutionLookup → SubstitutionLookup
  | .single l => .single l.force_subtable_break
  | .multiple l => .multiple l.force_subtable_break
  | .alternate l => .alternate l.force_subtable_break
  | .ligature l => .ligature l.force_subtable_break
  | .contextual l => .contextual l.force_subtable_break
  | .reverse l => .reverse l.force_subtable_break
  | .chainedContextual l => .chainedContextual l.force_subtable_break

/-- Modelled from the spec: `ContextualLookupBuilder<T>` (contextual.rs,
absent): "the outer builder carries the flags/filter/root-id, and each
subtable describes a context rule ... It also owns a vector of anonymous
inline lookups" (§3). -/
structure ContextualLookupBuilder (T : Type) where
  flags : Nat
  mark_set : Option Nat
  subtables : List ContextBuilder
  anon_lookups : List T
  root_id : LookupId
  deriving DecidableEq, Repr

/-- Modelled from the spec: `ContextualLookupBuilder::new`.  The root id
starts as a placeholder; `start_lookup` overwrites it before any rule is
added (I2). -/
def ContextualLookupBuilder.new {T : Type} (flags : Nat) (filter : Option Nat) :
    ContextualLookupBuilder T :=
  ⟨flags, filter, [default], [], LookupId.empty⟩

/-- Modelled from the spec: `force_subtable_break` on a contextual builder
appends a fresh empty subtable, like `LookupBuilder::force_subtable_break`. -/
def ContextualLookupBuilder.force_subtable_break {T : Type}
    (b : ContextualLookupBuilder T) : ContextualLookupBuilder T :=
  {b with subtables := b.subtables ++ [default]}

/-- Rust `ChainOrNot` (contextual.rs, absent): the root lookup handed back by
`into_lookups`, either plain contextual or chaining contextual. -/
inductive ChainOrNot where
  | context (lookup : LookupBuilder ContextBuilder)
  | chain (lookup : LookupBuilder ContextBuilder)
  deriving DecidableEq, Repr

/-- Modelled from the spec: `into_lookups` (contextual.rs, absent): hands
`AllLookups::push` the root lookup plus the owned anonymous lookups.  §4.5:
"This implementation always emits type 6/8 chaining form (matching the
dominant existing compiler's behavior), regardless of whether context wings
are empty" — so the root always comes back in the `Chain` form (the
`Context` form "remains in the IR for future use"). -/
def ContextualLookupBuilder.into_lookups {T : Type}
    (b : ContextualLookupBuilder T) : ChainOrNot × List T :=
  (ChainOrNot.chain ⟨b.flags, b.mark_set, b.subtables⟩, b.anon_lookups)

/-- Rust `SomeLookup` (lookups.rs lines 95-101). -/
inductive SomeLookup where
  | gsubLookup (l : SubstitutionLookup)
  | gposLookup (l : PositionLookup)
  | gposContextual (b : ContextualLookupBuilder PositionLookup)
  | gsubContextual (b : ContextualLookupBuilder SubstitutionLookup)
  deriving DecidableEq, Repr

/-- Rust `LookupFlagInfo` (lookups.rs lines 113-118). -/
structure LookupFlagInfo where
  flags : Nat
  mark_filter_set : Option Nat
  deriving DecidableEq, Repr

/-- Rust `is_gpos_rule` (lookups.rs lines 970-982). -/
def is_gpos_rule : Kind → Bool
  | .gposType1 | .gposType2 | .gposType3 | .gposType4
  | .gposType5 | .gposType6 | .gposType7 | .gposType8 => true
  | _ => false

namespace SomeLookup

/-- Rust `SomeLookup::new` (lookups.rs lines 648-687): contextual kinds get a
`ContextualLookupBuilder`; the rest get a typed `LookupBuilder`.  `none`
models the `unimplemented!` / `panic!` arms (`GposNode`, `GsubType7`, and
kinds that are not lookup kinds at all). -/
def new (kind : Kind) (flags : Nat) (filter : Option Nat) : Option SomeLookup :=
  match kind with
  | .gposType7 | .gposType8 =>
    some (gposContextual (ContextualLookupBuilder.new flags filter))
  | .gsubType5 | .gsubType6 =>
    some (gsubContextual (ContextualLookupBuilder.new flags filter))
  | .gposType1 => some (gposLookup (.single (LookupBuilder.new flags filter)))
  | .gposType2 => some (gposLookup (.pair (LookupBuilder.new flags filter)))
  | .gposType3 => some (gposLookup (.cursive (LookupBuilder.new flags filter)))
  | .gposType4 => some (gposLookup (.markToBase (LookupBuilder.new flags filter)))
  | .gposType5 => some (gposLookup (.markToLig (LookupBuilder.new flags filter)))
  | .gposType6 => some (gposLookup (.markToMark (LookupBuilder.new flags filter)))
  | .gposNode => none
  | .gsubType1 => some (gsubLookup (.single (LookupBuilder.new flags filter)))
  | .gsubType2 => some (gsubLookup (.multiple (LookupBuilder.new flags filter)))
  | .gsubType3 => some (gsubLookup (.alternate (LookupBuilder.new flags filter)))
  | .gsubType4 => some (gsubLookup (.ligature (LookupBuilder.new flags filter)))
  | .gsubType7 => none
  | .gsubType8 => some (gsubLookup (.reverse (LookupBuilder.new flags filter)))
  | _ => none

/-- Rust `SomeLookup::kind` (lookups.rs lines 689-712).  A contextual builder
always reports the chaining kind (GSUB 6 / GPOS 8).  `none` models the
`panic!("unhandled table kind")` arm for a `GsubLookup` wrapping a
contextual variant. -/
def kind : SomeLookup → Option Kind
  | gsubContextual _ => some .gsubType6
  | gposContextual _ => some .gposType8
  | gsubLookup (.single _) => some .gsubType1
  | gsubLookup (.multiple _) => some .gsubType2
  | gsubLookup (.alternate _) => some .gsubType3
  | gsubLookup (.ligature _) => some .gsubType4
  | gsubLookup (.reverse _) => some .gsubType8
  | gsubLookup _ => none
  | gposLookup (.single _) => some .gposType1
  | gposLookup (.pair _) => some .gposType2
  | gposLookup (.cursive _) => some .gposType3
  | gposLookup (.markToBase _) => some .gposType4
  | gposLookup (.markToLig _) => some .gposType5
  | gposLookup (.markToMark _) => some .gposType6
  | gposLookup (.contextual _) => some .gposType7
  | gposLookup (.chainedContextual _) => some .gposType8

/-- Rust `SomeLookup::add_gsub_type_1` (lookups.rs lines 811-818): insert into
the last subtable of the current single-substitution lookup; `none` models
both the kind-mismatch `panic!` and the `last_mut().unwrap()` panic. -/
def add_gsub_type_1 (s : SomeLookup) (id replacement : Nat) : Option SomeLookup :=
  match s with
  | gsubLookup (.single table) =>
    (table.modifyLast (fun sub => sub.insert id replacement)).map
      (fun t => gsubLookup (.single t))
  | _ => none

end SomeLookup

/-- Rust `AllLookups` (lookups.rs lines 54-61).  Lookup names (`SmolStr`) are
modelled as strings. -/
structure AllLookups where
  current : Option SomeLookup
  current_name : Option String
  gpos : List PositionLookup
  gsub : List SubstitutionLookup
  named : List (String × LookupId)
  deriving DecidableEq, Repr

namespace AllLookups

/-- Rust `AllLookups::push` (lookups.rs lines 289-332).  For a contextual lookup
the sanity check `assert_eq!(id, lookup.root_id)` aborts on mismatch
(`none`); the root lookup is pushed first and the anonymous lookups are
appended after it.  Note the GPOS arm forces a plain-contextual root into
the `ChainedContextual` variant, while the GSUB arm keeps a plain-contextual
root as `Contextual`. -/
def push (self : AllLookups) (lookup : SomeLookup) : Option (AllLookups × LookupId) :=
  match lookup with
  | .gsubLookup sub =>
    some ({self with gsub := self.gsub ++ [sub]},
      .gsub ((self.gsub ++ [sub]).length - 1))
  | .gposLookup pos =>
    some ({self with gpos := self.gpos ++ [pos]},
      .gpos ((self.gpos ++ [pos]).length - 1))
  | .gposContextual lookup =>
    let id := LookupId.gpos self.gpos.length
    if id = lookup.root_id then
      let pair := lookup.into_lookups
      let pushed := match pair.1 with
        | .context l => self.gpos ++ [PositionLookup.chainedContextual l]
        | .chain l => self.gpos ++ [PositionLookup.chainedContextual l]
      some ({self with gpos := pushed ++ pair.2}, id)
    else none
  | .gsubContextual lookup =>
    let id := LookupId.gsub self.gsub.length
    if id = lookup.root_id then
      let pair := lookup.into_lookups
      let pushed := match pair.1 with
        | .context l => self.gsub ++ [SubstitutionLookup.contextual l]
        | .chain l => self.gsub ++ [SubstitutionLookup.chainedContextual l]
      some ({self with gsub := pushed ++ pair.2}, id)
    else none

/-- Rust `AllLookups::has_current` (lookups.rs lines 342-344). -/
def has_current (self : AllLookups) : Bool := self.current.isSome

/-- Rust `AllLookups::needs_new_lookup` (lookups.rs lines 346-349): true when
there is no current lookup or its kind differs from `kind`.  The inner
`SomeLookup::kind` call can panic (see `SomeLookup.kind`), hence the
`Option`. -/
def needs_new_lookup (self : AllLookups) (kind : Kind) : Option Bool :=
  match self.current with
  | none => some true
  | some cur => cur.kind.map (fun k => !(k == kind))

/-- Rust `AllLookups::add_subtable_break` (lookups.rs lines 351-364): force a new
subtable on the current lookup, returning `true`; with no current lookup it
is a no-op returning `false`. -/
def add_subtable_break (self : AllLookups) : AllLookups × Bool :=
  match self.current with
  | some cur =>
    let cur' := match cur with
      | .gsubLookup lookup => SomeLookup.gsubLookup lookup.force_subtable_break
      | .gposLookup lookup => SomeLookup.gposLookup lookup.force_subtable_break
      | .gposContextual lookup => SomeLookup.gposContextual lookup.force_subtable_break
      | .gsubContextual lookup => SomeLookup.gsubContextual lookup.force_subtable_break
    ({self with current := some cur'}, true)
  | none => (self, false)

/-- Rust `AllLookups::start_lookup` (lookups.rs lines 371-389): push the current
lookup (if any), create the new one, seed its root id with the index it will
eventually be pushed at, and install it as current.  `none` models a panic
in `push` or in `SomeLookup::new`. -/
def start_lookup (self : AllLookups) (kind : Kind) (flags : LookupFlagInfo) :
    Option (AllLookups × Option LookupId) :=
  let afterFinish : Option (AllLookups × Option LookupId) :=
    match self.current with
    | some cur =>
      (push {self with current := none} cur).map
        (fun r => ({r.1 with current := none}, some r.2))
    | none => some ({self with current := none}, none)
  afterFinish.bind fun r =>
    (SomeLookup.new kind flags.flags flags.mark_filter_set).map fun newOne =>
      let newId := if is_gpos_rule kind then LookupId.gpos r.1.gpos.length
        else LookupId.gsub r.1.gsub.length
      let newOne := match newOne with
        | .gsubContextual b => SomeLookup.gsubContextual {b with root_id := newId}
        | .gposContextual b => SomeLookup.gposContextual {b with root_id := newId}
        | other => other
      ({r.1 with current := some newOne}, r.2)

end AllLookups

/-- The per-lookup rewrite step of `insert_aalt_lookups` (lookups.rs lines
513-523): bump every nested lookup id held in a contextual or
chaining-contextual GSUB subtable by `n`; every other lookup is left
untouched. -/
def bumpLookupIds (n : Nat) : SubstitutionLookup → SubstitutionLookup
  | .contextual lb =>
    .contextual {lb with subtables := lb.subtables.map (·.bump_all_lookup_ids n)}
  | .chainedContextual lb =>
    .chainedContextual {lb with subtables := lb.subtables.map (·.bump_all_lookup_ids n)}
  | other => other

/-- The builder-partition step of `insert_aalt_lookups` (lookups.rs lines
482-491): a target with exactly one alternate goes to the single-sub
builder, the rest go to the alternate-sub builder. -/
def aaltBuilders (all_alts : List (Nat × List Nat)) :
    SingleSubBuilder × AlternateSubBuilder :=
  all_alts.foldl
    (fun p ta =>
      if ta.2.length == 1 then (p.1.insert ta.1 (ta.2.headD 0), p.2)
      else (p.1, p.2.insert ta.1 ta.2))
    (⟨[]⟩, ⟨[]⟩)

/-- The up-to-two synthetic lookups of `insert_aalt_lookups` (lookups.rs
lines 492-507): one single-sub lookup and one alternate-sub lookup, each
built only if its builder is non-empty, in that order. -/
def aaltPrepended (all_alts : List (Nat × List Nat)) : List SubstitutionLookup :=
  let builders := aaltBuilders all_alts
  let one : Option SubstitutionLookup :=
    if builders.1.is_empty then none
    else some (.single (LookupBuilder.new_with_lookups 0 none [builders.1]))
  let two : Option SubstitutionLookup :=
    if builders.2.is_empty then none
    else some (.alternate (LookupBuilder.new_with_lookups 0 none [builders.2]))
  one.toList ++ two.toList

/-- Rust `AllLookups::insert_aalt_lookups` (lookups.rs lines 478-529): partition
the alternates map into the single-sub and alternate-sub builders, build up
to two synthetic lookups, bump every nested GSUB id by their count, and
prepend them to the GSUB vector.  The iteration order of the Rust `HashMap`
is modelled by the order of the association list. -/
def AllLookups.insert_aalt_lookups (self : AllLookups)
    (all_alts : List (Nat × List Nat)) : AllLookups × List LookupId :=
  let lookups := aaltPrepended all_alts
  let lookup_ids := (List.range lookups.length).map LookupId.gsub
  let bumped := self.gsub.map (bumpLookupIds lookups.length)
  ({self with gsub := lookups ++ bumped}, lookup_ids)

/-- Theorem-side accessor: the nested lookup reference at subtable `s`,
rule `r`, input position `p`, reference index `q` of a contextual or
chaining-contextual GSUB lookup. -/
def SubstitutionLookup.nestedRef (l : SubstitutionLookup) (s r p q : Nat) :
    Option LookupId :=
  match l with
  | .contextual lb | .chainedContextual lb =>
    (lb.subtables.get? s).bind fun sub =>
      (sub.rules.get? r).bind fun rule =>
        (rule.input.get? p).bind fun gi => gi.2.get? q
  | _ => none

/-- Theorem-side predicate: is this a contextual or chaining-contextual
GSUB lookup (the only shapes whose nested ids the aalt pass rewrites)? -/
def SubstitutionLookup.isContextual : SubstitutionLookup → Bool
  | .contextual _ | .chainedContextual _ => true
  | _ => false

/-- Theorem-side accessor: the number of subtables of the current lookup,
whatever its shape. -/
def SomeLookup.subtableCount : SomeLookup → Nat
  | .gsubLookup (.single l) => l.subtables.length
  | .gsubLookup (.multiple l) => l.subtables.length
  | .gsubLookup (.alternate l) => l.subtables.length
  | .gsubLookup (.ligature l) => l.subtables.length
  | .gsubLookup (.contextual l) => l.subtables.length
  | .gsubLookup (.chainedContextual l) => l.subtables.length
  | .gsubLookup (.reverse l) => l.subtables.length
  | .gposLookup (.single l) => l.subtables.length
  | .gposLookup (.pair l) => l.subtables.length
  | .gposLookup (.cursive l) => l.subtables.length
  | .gposLookup (.markToBase l) => l.subtables.length
  | .gposLookup (.markToLig l) => l.subtables.length
  | .gposLookup (.markToMark l) => l.subtables.length
  | .gposLookup (.contextual l) => l.subtables.length
  | .gposLookup (.chainedContextual l) => l.subtables.length
  | .gposContextual b => b.subtables.length
  | .gsubContextual b => b.subtables.length

/-! ## C9: the lookup-builder subtable list is never empty -/

/-- The operations a driver can apply to one `LookupBuilder` after `new`:
a subtable break, or a rule insertion — every kind-specific insertion
entrypoint is `modifyLast` with that entrypoint's update function
(see `SomeLookup.add_gsub_type_1`). -/
inductive BuilderOp (T : Type) where
  | subtableBreak
  | insertRule (f : T → T)

/-- Apply one driver operation to a lookup builder. -/
def applyBuilderOp {T : Type} [Inhabited T] (b : LookupBuilder T) :
    BuilderOp T → Option (LookupBuilder T)
  | .subtableBreak => some b.force_subtable_break
  | .insertRule f => b.modifyLast f

/-- Apply a sequence of driver operations to a lookup builder. -/
def runBuilderOps {T : Type} [Inhabited T] (b : LookupBuilder T) :
    List (BuilderOp T) → Option (LookupBuilder T)
  | [] => some b
  | op :: rest => (applyBuilderOp b op).bind (fun b2 => runBuilderOps b2 rest)

theorem modifyLast_isSome {T : Type} {b : LookupBuilder T} (f : T → T)
    (hb : b.subtables ≠ []) : (b.modifyLast f).isSome = true := by
  obtain ⟨last, hl⟩ := Option.isSome_iff_exists.1 (List.getLast?_isSome.2 hb)
  simp [LookupBuilder.modifyLast, hl]

theorem runBuilderOps_nonempty {T : Type} [Inhabited T] (ops : List (BuilderOp T)) :
    ∀ b : LookupBuilder T, b.subtables ≠ [] →
      ∃ b2, runBuilderOps b ops = some b2 ∧ b2.subtables ≠ [] := by
  induction ops with
  | nil => intro b hb; exact ⟨b, rfl, hb⟩
  | cons op rest ih =>
    intro b hb
    cases op with
    | subtableBreak =>
      have h2 : b.force_subtable_break.subtables ≠ [] := by
        simp [LookupBuilder.force_subtable_break]
      obtain ⟨b2, hrun, hne⟩ := ih _ h2
      exact ⟨b2, by simp [runBuilderOps, applyBuilderOp, hrun], hne⟩
    | insertRule f =>
      obtain ⟨last, hl⟩ := Option.isSome_iff_exists.1 (List.getLast?_isSome.2 hb)
      have h2 : ({b with subtables := b.subtables.dropLast ++ [f last]} :
          LookupBuilder T).subtables ≠ [] := by simp
      obtain ⟨b2, hrun, hne⟩ := ih _ h2
      refine ⟨b2, ?_, hne⟩
      simp [runBuilderOps, applyBuilderOp, LookupBuilder.modifyLast, hl, hrun]

/-- C9: every `LookupBuilder` reachable from `LookupBuilder::new` by
subtable breaks and rule insertions has a non-empty subtable list (`new`
starts with one default subtable, a break only appends, an insertion only
rewrites the last subtable), so taking the last subtable in an insertion
entrypoint always succeeds — in particular `add_gsub_type_1`'s
`last_mut().unwrap()` on such a builder never panics. -/
theorem lookup_builder_always_has_subtable :
    (∀ (T : Type) (inst : Inhabited T) (flags : Nat) (ms : Option Nat)
        (ops : List (BuilderOp T)),
      ∃ b, @runBuilderOps T inst (@LookupBuilder.new T inst flags ms) ops = some b ∧
        b.subtables ≠ [] ∧ ∀ f : T → T, (b.modifyLast f).isSome = true) ∧
    (∀ (flags : Nat) (ms : Option Nat) (ops : List (BuilderOp SingleSubBuilder))
        (id replacement : Nat),
      ((runBuilderOps (LookupBuilder.new flags ms) ops).bind fun b =>
        SomeLookup.add_gsub_type_1
          (SomeLookup.gsubLookup (SubstitutionLookup.single b)) id replacement).isSome
        = true) := by
  constructor
  · intro T inst flags ms ops
    obtain ⟨b, hrun, hne⟩ :=
      runBuilderOps_nonempty ops (@LookupBuilder.new T inst flags ms)
        (by simp [LookupBuilder.new])
    exact ⟨b, hrun, hne, fun f => modifyLast_isSome f hne⟩
  · intro flags ms ops id replacement
    obtain ⟨b, hrun, hne⟩ :=
      runBuilderOps_nonempty ops (LookupBuilder.new flags ms)
        (by simp [LookupBuilder.new])
    rw [hrun]
    have hm := modifyLast_isSome (fun sub => sub.insert id replacement) hne
    obtain ⟨t, ht⟩ := Option.isSome_iff_exists.1 hm
    simp [SomeLookup.add_gsub_type_1, ht]

/-! ## C8: `add_subtable_break` with and without a current lookup -/

/-- C8 (counterexample): with no current lookup, `add_subtable_break` does
not abort compilation — it returns normally, leaving the state unchanged
and reporting `false`.  (In the model a panic would be an `Option`-valued
result; the function is total.)  The claim said this case is a fatal
programmer error with a non-recoverable signal. -/
theorem add_subtable_break_no_current_is_noop :
    AllLookups.add_subtable_break ⟨none, none, [], [], []⟩ =
      (⟨none, none, [], [], []⟩, false) := by
  rfl

/-- C8 (amended): `add_subtable_break` with no current lookup is a no-op
that reports `false` (the error is signalled only through the return value,
not by aborting); with a current lookup it begins a new (empty) subtable in
that lookup — the subtable count grows by one — and reports `true`, leaving
the finished lookup vectors untouched. -/
theorem add_subtable_break_spec (self : AllLookups) :
    (self.current = none → self.add_subtable_break = (self, false)) ∧
    (∀ cur, self.current = some cur →
      self.add_subtable_break.2 = true ∧
      self.add_subtable_break.1.current.map SomeLookup.subtableCount =
        some (cur.subtableCount + 1) ∧
      self.add_subtable_break.1.gpos = self.gpos ∧
      self.add_subtable_break.1.gsub = self.gsub) := by
  constructor
  · intro h
    simp [AllLookups.add_subtable_break, h]
  · intro cur hcur
    cases cur with
    | gsubLookup l =>
      cases l <;>
        simp [AllLookups.add_subtable_break, hcur, SomeLookup.subtableCount,
          SubstitutionLookup.force_subtable_break, LookupBuilder.force_subtable_break]
    | gposLookup l =>
      cases l <;>
        simp [AllLookups.add_subtable_break, hcur, SomeLookup.subtableCount,
          PositionLookup.force_subtable_break, LookupBuilder.force_subtable_break]
    | gposContextual b =>
      simp [AllLookups.add_subtable_break, hcur, SomeLookup.subtableCount,
        ContextualLookupBuilder.force_subtable_break]
    | gsubContextual b =>
      simp [AllLookups.add_subtable_break, hcur, SomeLookup.subtableCount,
        ContextualLookupBuilder.force_subtable_break]

/-- Witness for C8 (amended): breaking a subtable on a state whose current
lookup is a fresh single-substitution lookup reports `true` and leaves the
lookup with two subtables. -/
theorem add_subtable_break_spec_witness :
    (AllLookups.add_subtable_break
      ⟨some (SomeLookup.gsubLookup (SubstitutionLookup.single
        (LookupBuilder.new 0 none))), none, [], [], []⟩).2 = true ∧
    (AllLookups.add_subtable_break
      ⟨some (SomeLookup.gsubLookup (SubstitutionLookup.single
        (LookupBuilder.new 0 none))), none, [], [], []⟩).1.current.map
        SomeLookup.subtableCount = some 2 := by
  have h := (add_subtable_break_spec
    ⟨some (SomeLookup.gsubLookup (SubstitutionLookup.single
      (LookupBuilder.new 0 none))), none, [], [], []⟩).2 _ rfl
  exact ⟨h.1, h.2.1⟩

/-! ## C10: contextual kinds are reported as their chaining forms -/

theorem needs_new_of_gsubContextual (al : AllLookups)
    (b : ContextualLookupBuilder SubstitutionLookup)
    (h : al.current = some (SomeLookup.gsubContextual b)) :
    al.needs_new_lookup Kind.gsubType6 = some false ∧
      al.needs_new_lookup Kind.gsubType5 = some true := by
  constructor <;> simp [AllLookups.needs_new_lookup, h, SomeLookup.kind]

theorem needs_new_of_gposContextual (al : AllLookups)
    (b : ContextualLookupBuilder PositionLookup)
    (h : al.current = some (SomeLookup.gposContextual b)) :
    al.needs_new_lookup Kind.gposType8 = some false ∧
      al.needs_new_lookup Kind.gposType7 = some true := by
  constructor <;> simp [AllLookups.needs_new_lookup, h, SomeLookup.kind]

theorem start_lookup_gsub_contextual_current
    (self : AllLookups) (k : Kind) (flags : LookupFlagInfo)
    (self2 : AllLookups) (fid : Option LookupId)
    (hk : k = Kind.gsubType5 ∨ k = Kind.gsubType6)
    (h : self.start_lookup k flags = some (self2, fid)) :
    ∃ b, self2.current = some (SomeLookup.gsubContextual b) := by
  have hnew : SomeLookup.new k flags.flags flags.mark_filter_set =
      some (SomeLookup.gsubContextual
        (ContextualLookupBuilder.new flags.flags flags.mark_filter_set)) := by
    rcases hk with rfl | rfl <;> rfl
  cases hc : self.current with
  | none =>
    simp only [AllLookups.start_lookup, hc, Option.some_bind, hnew,
      Option.map_some', Option.some.injEq] at h
    obtain ⟨h1, h2⟩ := Prod.mk.inj h
    subst h1
    exact ⟨_, rfl⟩
  | some cur =>
    cases hp : AllLookups.push {self with current := none} cur with
    | none =>
      simp only [AllLookups.start_lookup, hc, hp, Option.map_none',
        Option.none_bind] at h
      exact Option.noConfusion h
    | some r =>
      simp only [AllLookups.start_lookup, hc, hp, Option.map_some',
        Option.some_bind, hnew, Option.some.injEq] at h
      obtain ⟨h1, h2⟩ := Prod.mk.inj h
      subst h1
      exact ⟨_, rfl⟩

theorem start_lookup_gpos_contextual_current
    (self : AllLookups) (k : Kind) (flags : LookupFlagInfo)
    (self2 : AllLookups) (fid : Option LookupId)
    (hk : k = Kind.gposType7 ∨ k = Kind.gposType8)
    (h : self.start_lookup k flags = some (self2, fid)) :
    ∃ b, self2.current = some (SomeLookup.gposContextual b) := by
  have hnew : SomeLookup.new k flags.flags flags.mark_filter_set =
      some (SomeLookup.gposContextual
        (ContextualLookupBuilder.new flags.flags flags.mark_filter_set)) := by
    rcases hk with rfl | rfl <;> rfl
  cases hc : self.current with
  | none =>
    simp only [AllLookups.start_lookup, hc, Option.some_bind, hnew,
      Option.map_some', Option.some.injEq] at h
    obtain ⟨h1, h2⟩ := Prod.mk.inj h
    subst h1
    exact ⟨_, rfl⟩
  | some cur =>
    cases hp : AllLookups.push {self with current := none} cur with
    | none =>
      simp only [AllLookups.start_lookup, hc, hp, Option.map_none',
        Option.none_bind] at h
      exact Option.noConfusion h
    | some r =>
      simp only [AllLookups.start_lookup, hc, hp, Option.map_some',
        Option.some_bind, hnew, Option.some.injEq] at h
      obtain ⟨h1, h2⟩ := Prod.mk.inj h
      subst h1
      exact ⟨_, rfl⟩

/-- C10: immediately after `start_lookup` with kind GsubType5 or GsubType6
the current lookup is a GSUB contextual builder, whose reported kind is
GsubType6 — so `needs_new_lookup(GsubType6)` is `false` while
`needs_new_lookup(GsubType5)` is `true`; symmetrically for GposType7 /
GposType8, the reported kind is GposType8. -/
theorem start_lookup_contextual_kinds
    (self : AllLookups) (k : Kind) (flags : LookupFlagInfo)
    (self2 : AllLookups) (fid : Option LookupId) :
    ((k = Kind.gsubType5 ∨ k = Kind.gsubType6) →
      self.start_lookup k flags = some (self2, fid) →
      self2.needs_new_lookup Kind.gsubType6 = some false ∧
        self2.needs_new_lookup Kind.gsubType5 = some true) ∧
    ((k = Kind.gposType7 ∨ k = Kind.gposType8) →
      self.start_lookup k flags = some (self2, fid) →
      self2.needs_new_lookup Kind.gposType8 = some false ∧
        self2.needs_new_lookup Kind.gposType7 = some true) := by
  constructor
  · intro hk h
    obtain ⟨b, hb⟩ :=
      start_lookup_gsub_contextual_current self k flags self2 fid hk h
    exact needs_new_of_gsubContextual self2 b hb
  · intro hk h
    obtain ⟨b, hb⟩ :=
      start_lookup_gpos_contextual_current self k flags self2 fid hk h
    exact needs_new_of_gposContextual self2 b hb

/-- Witness for C10: starting a GsubType5 lookup on an empty state makes
`needs_new_lookup` report `false` for GsubType6 and `true` for GsubType5. -/
theorem start_lookup_contextual_kinds_witness :
    ∃ st : AllLookups × Option LookupId,
      AllLookups.start_lookup ⟨none, none, [], [], []⟩ Kind.gsubType5 ⟨0, none⟩ =
        some st ∧
      st.1.needs_new_lookup Kind.gsubType6 = some false ∧
      st.1.needs_new_lookup Kind.gsubType5 = some true := by
  refine ⟨_, rfl, ?_⟩
  exact (start_lookup_contextual_kinds ⟨none, none, [], [], []⟩ Kind.gsubType5
    ⟨0, none⟩ _ _).1 (Or.inl rfl) rfl

/-! ## C5: finished contextual lookups are stored in chaining form -/

/-- C5: whenever a contextual lookup under construction is pushed, the root
lookup stored in the output vector is the chaining-contextual variant
(GSUB type 6 / GPOS type 8) built from the builder's flags, filter set and
subtables; the plain `Contextual` variant is never pushed (`into_lookups`
always yields the chain form, and the GPOS arm additionally rewrites a
plain-contextual root into `ChainedContextual`). -/
theorem push_contextual_always_chained (self : AllLookups) :
    (∀ b res, self.push (SomeLookup.gsubContextual b) = some res →
      res.1.gsub.get? self.gsub.length =
        some (SubstitutionLookup.chainedContextual ⟨b.flags, b.mark_set, b.subtables⟩)) ∧
    (∀ b res, self.push (SomeLookup.gposContextual b) = some res →
      res.1.gpos.get? self.gpos.length =
        some (PositionLookup.chainedContextual ⟨b.flags, b.mark_set, b.subtables⟩)) := by
  constructor
  · intro b res h
    simp only [AllLookups.push, ContextualLookupBuilder.into_lookups] at h
    by_cases hid : LookupId.gsub self.gsub.length = b.root_id
    · rw [if_pos hid] at h
      obtain rfl := (Option.some.inj h).symm
      show ((self.gsub ++ [SubstitutionLookup.chainedContextual
          ⟨b.flags, b.mark_set, b.subtables⟩]) ++ b.anon_lookups).get?
            self.gsub.length = _
      rw [List.append_assoc, List.get?_append_right (Nat.le_refl _)]
      simp
    · rw [if_neg hid] at h
      cases h
  · intro b res h
    simp only [AllLookups.push, ContextualLookupBuilder.into_lookups] at h
    by_cases hid : LookupId.gpos self.gpos.length = b.root_id
    · rw [if_pos hid] at h
      obtain rfl := (Option.some.inj h).symm
      show ((self.gpos ++ [PositionLookup.chainedContextual
          ⟨b.flags, b.mark_set, b.subtables⟩]) ++ b.anon_lookups).get?
            self.gpos.length = _
      rw [List.append_assoc, List.get?_append_right (Nat.le_refl _)]
      simp
    · rw [if_neg hid] at h
      cases h

/-- Witness for C5: pushing a fresh GSUB contextual lookup (root id 0) onto
an empty state stores a `ChainedContextual` lookup at index 0. -/
theorem push_contextual_always_chained_witness :
    ((⟨none, none, [], [], []⟩ : AllLookups).push
      (SomeLookup.gsubContextual ⟨0, none, [⟨[]⟩], [], LookupId.gsub 0⟩)).map
        (fun r => r.1.gsub.get? 0) =
      some (some (SubstitutionLookup.chainedContextual ⟨0, none, [⟨[]⟩]⟩)) := by
  have h := (push_contextual_always_chained ⟨none, none, [], [], []⟩).1
    ⟨0, none, [⟨[]⟩], [], LookupId.gsub 0⟩ _ rfl
  exact congrArg some h

/-! ## C2: the aalt prepend-and-renumber pass -/

theorem nestedRef_bump (n : Nat) (l : SubstitutionLookup) (s r p q : Nat) :
    (bumpLookupIds n l).nestedRef s r p q =
      (l.nestedRef s r p q).map (·.adjust_if_gsub n) := by
  have key : ∀ lb : LookupBuilder ContextBuilder,
      (((lb.subtables.map (·.bump_all_lookup_ids n)).get? s).bind fun sub =>
        (sub.rules.get? r).bind fun rule =>
          (rule.input.get? p).bind fun gi => gi.2.get? q) =
      (((lb.subtables.get? s).bind fun sub =>
        (sub.rules.get? r).bind fun rule =>
          (rule.input.get? p).bind fun gi => gi.2.get? q).map (·.adjust_if_gsub n)) := by
    intro lb
    rw [List.get?_map]
    cases hsub : lb.subtables.get? s with
    | none => simp
    | some sub =>
      simp only [Option.map_some', Option.some_bind]
      unfold ContextBuilder.bump_all_lookup_ids
      rw [List.get?_map]
      cases hr : sub.rules.get? r with
      | none => simp
      | some rule =>
        simp only [Option.map_some', Option.some_bind]
        rw [List.get?_map]
        cases hp2 : rule.input.get? p with
        | none => simp
        | some gi =>
          simp only [Option.map_some', Option.some_bind]
          rw [List.get?_map]
  cases l with
  | contextual lb =>
    simpa only [bumpLookupIds, SubstitutionLookup.nestedRef] using key lb
  | chainedContextual lb =>
    simpa only [bumpLookupIds, SubstitutionLookup.nestedRef] using key lb
  | single b => simp [bumpLookupIds, SubstitutionLookup.nestedRef]
  | multiple b => simp [bumpLookupIds, SubstitutionLookup.nestedRef]
  | alternate b => simp [bumpLookupIds, SubstitutionLookup.nestedRef]
  | ligature b => simp [bumpLookupIds, SubstitutionLookup.nestedRef]
  | reverse b => simp [bumpLookupIds, SubstitutionLookup.nestedRef]

theorem bumpLookupIds_non_contextual (n : Nat) (l : SubstitutionLookup)
    (h : l.isContextual = false) : bumpLookupIds n l = l := by
  cases l <;> simp_all [SubstitutionLookup.isContextual, bumpLookupIds]

theorem aaltPrepended_length_le (all_alts : List (Nat × List Nat)) :
    (aaltPrepended all_alts).length ≤ 2 := by
  by_cases h1 : (aaltBuilders all_alts).1.is_empty <;>
    by_cases h2 : (aaltBuilders all_alts).2.is_empty <;>
      simp [aaltPrepended, h1, h2]

theorem insert_aalt_gsub_get (self : AllLookups) (all_alts : List (Nat × List Nat))
    (i : Nat) :
    (self.insert_aalt_lookups all_alts).1.gsub.get?
        ((aaltPrepended all_alts).length + i) =
      (self.gsub.get? i).map (bumpLookupIds (aaltPrepended all_alts).length) := by
  show (aaltPrepended all_alts ++
      self.gsub.map (bumpLookupIds (aaltPrepended all_alts).length)).get? _ = _
  rw [List.get?_append_right (Nat.le_add_right _ _)]
  simp [List.get?_map, Nat.add_sub_cancel_left]

/-- C2: after `insert_aalt_lookups` prepends `n` synthetic GSUB lookups
(`n ≤ 2`, one for each non-empty of the single-sub and alternate-sub
builders, with ids `Gsub 0 .. Gsub (n-1)`):
the new GSUB vector is the prepended lookups followed by the original
lookups in their original order (their nested ids rewritten), the GPOS
vector does not move, every nested reference `Gsub k` held in a contextual
or chaining-contextual GSUB subtable now reads `Gsub (k + n)`, and every
non-contextual lookup is unchanged apart from the shift by `n` positions. -/
theorem insert_aalt_lookups_spec (self : AllLookups)
    (all_alts : List (Nat × List Nat)) :
    (self.insert_aalt_lookups all_alts).2 =
      (List.range (aaltPrepended all_alts).length).map LookupId.gsub ∧
    (aaltPrepended all_alts).length ≤ 2 ∧
    (self.insert_aalt_lookups all_alts).1.gsub =
      aaltPrepended all_alts ++
        self.gsub.map (bumpLookupIds (aaltPrepended all_alts).length) ∧
    (self.insert_aalt_lookups all_alts).1.gpos = self.gpos ∧
    (∀ i s r p q k,
      ((self.gsub.get? i).bind fun l => l.nestedRef s r p q) =
          some (LookupId.gsub k) →
      (((self.insert_aalt_lookups all_alts).1.gsub.get?
          ((aaltPrepended all_alts).length + i)).bind fun l =>
            l.nestedRef s r p q) =
        some (LookupId.gsub (k + (aaltPrepended all_alts).length))) ∧
    (∀ i l, self.gsub.get? i = some l → l.isContextual = false →
      (self.insert_aalt_lookups all_alts).1.gsub.get?
          ((aaltPrepended all_alts).length + i) = some l) := by
  refine ⟨rfl, aaltPrepended_length_le all_alts, rfl, rfl, ?_, ?_⟩
  · intro i s r p q k hk
    rw [insert_aalt_gsub_get]
    cases hi : self.gsub.get? i with
    | none => rw [hi] at hk; simp at hk
    | some l =>
      rw [hi] at hk
      simp only [Option.some_bind] at hk
      simp only [Option.map_some', Option.some_bind]
      rw [nestedRef_bump, hk]
      simp [LookupId.adjust_if_gsub]
  · intro i l hi hnc
    rw [insert_aalt_gsub_get, hi]
    simp [bumpLookupIds_non_contextual _ _ hnc]

/-- Witness for C2, at the spec's S4 scenario: a GSUB chaining-contextual
lookup holds a nested reference to index 3; one aalt lookup is prepended
(a single alternate, so only the single-sub builder is non-empty); the
nested reference now reads index 4. -/
theorem insert_aalt_lookups_spec_witness :
    (((AllLookups.insert_aalt_lookups
        ⟨none, none, [],
          [SubstitutionLookup.chainedContextual ⟨0, none,
            [⟨[⟨[], [(GlyphOrClass.glyph 1, [LookupId.gsub 3])], []⟩]⟩]⟩],
          []⟩
        [(5, [6])]).1.gsub.get? 1).bind fun l =>
      l.nestedRef 0 0 0 0) = some (LookupId.gsub 4) := by
  have h := (insert_aalt_lookups_spec
      ⟨none, none, [],
        [SubstitutionLookup.chainedContextual ⟨0, none,
          [⟨[⟨[], [(GlyphOrClass.glyph 1, [LookupId.gsub 3])], []⟩]⟩]⟩],
        []⟩
      [(5, [6])]).2.2.2.2.1 0 0 0 0 0 3 rfl
  have e : (aaltPrepended [(5, [6])]).length = 1 := rfl
  rw [e] at h
  simpa using h

/-! ## C7: the class-definition builder (helpers.rs)

A `GlyphClass` (types.rs lines 25-26) is an ordered sequence of glyph ids
with duplicates preserved; it is modelled as `List Nat`.  The hash sets of
`ClassDefBuilder2` are modelled as lists, with set-insertion semantics for
the class set (membership queries are all that the code performs). -/

/-- The sort order of `ClassDefBuilder2::build` (helpers.rs lines 53-58):
key `(Reverse(cls.len()), cls.iter().next().unwrap_or_default())` — larger
classes first, ties broken by the FIRST glyph id stored in the class
(`unwrap_or_default` supplies 0 for an empty class). -/
def classLe (c1 c2 : List Nat) : Prop :=
  c2.length < c1.length ∨ (c1.length = c2.length ∧ c1.headD 0 ≤ c2.headD 0)

instance : DecidableRel classLe := fun c1 c2 => by
  unfold classLe; exact inferInstance

instance : IsTotal (List Nat) classLe := ⟨fun a b => by unfold classLe; omega⟩

instance : IsTrans (List Nat) classLe :=
  ⟨fun a b c hab hbc => by unfold classLe at *; omega⟩

/-- Rust `Vec::dedup` (helpers.rs line 59): remove consecutive duplicates,
keeping the first of each run. -/
def dedupAdjacent : List (List Nat) → List (List Nat)
  | [] => []
  | [a] => [a]
  | a :: b :: rest =>
    if a = b then dedupAdjacent (b :: rest) else a :: dedupAdjacent (b :: rest)

/-- Rust `.enumerate().map(|(i, cls)| (cls, i as u16 + add_one))` (helpers.rs
lines 61-65): number the sorted classes consecutively starting at `base`. -/
def assignIds (base : Nat) : List (List Nat) → List (List Nat × Nat)
  | [] => []
  | c :: rest => (c, base) :: assignIds (base + 1) rest

/-- Rust `ClassDefBuilder2` (helpers.rs lines 18-23). -/
structure ClassDefBuilder2 where
  classes : List (List Nat)
  glyphs : List Nat
  use_class_0 : Bool
  deriving DecidableEq, Repr

namespace ClassDefBuilder2

/-- Rust `ClassDefBuilder2::new` (helpers.rs lines 33-38). -/
def new (use_class_0 : Bool) : ClassDefBuilder2 := ⟨[], [], use_class_0⟩

/-- Rust `ClassDefBuilder2::can_add` (helpers.rs lines 40-42): the class is
already present, or none of its glyphs has been claimed. -/
def can_add (self : ClassDefBuilder2) (cls : List Nat) : Bool :=
  decide (cls ∈ self.classes) ||
    cls.all fun gid => !(decide (gid ∈ self.glyphs))

/-- Rust `ClassDefBuilder2::add` (helpers.rs lines 44-47): extend the glyph set
with the class's glyphs and insert the class into the class set
(`HashSet::insert` is a no-op when the class is already present). -/
def add (self : ClassDefBuilder2) (cls : List Nat) : ClassDefBuilder2 :=
  { self with
    glyphs := self.glyphs ++ cls,
    classes :=
      if cls ∈ self.classes then self.classes else self.classes ++ [cls] }

/-- Rust `ClassDefBuilder2::build` (helpers.rs lines 51-73): sort the class set
by `(Reverse(len), first glyph)` (`sort_unstable_by_key`, modelled by a
sorted permutation via insertion sort), `dedup`, number the classes from 0
(class 0 in explicit use) or 1 (class 0 reserved), and emit both the
glyph→class pairs of the `ClassDef` and the class→id mapping (the Rust
`HashMap`s are modelled as association lists). -/
def build (self : ClassDefBuilder2) :
    List (Nat × Nat) × List (List Nat × Nat) :=
  let classes := dedupAdjacent (List.insertionSort classLe self.classes)
  let add_one : Nat := if self.use_class_0 then 0 else 1
  let mapping := assignIds add_one classes
  let class_def := mapping.bind fun ci => ci.1.map fun gid => (gid, ci.2)
  (class_def, mapping)

end ClassDefBuilder2

/-- A sequence of additions, each checked with `can_add` first (the claim's
"each addition permitted by can_add"); `none` if some check fails. -/
def permittedAdds (b : ClassDefBuilder2) : List (List Nat) → Option ClassDefBuilder2
  | [] => some b
  | cls :: rest =>
    if b.can_add cls then permittedAdds (b.add cls) rest else none

/-- C7 (counterexample): two disjoint same-size classes `[3,1]` and `[2,4]`,
both additions permitted by `can_add`.  The class `[3,1]` contains the
smallest glyph id overall (1 < 2), so under the claim's tie-break it must
receive the lowest id (1, since class 0 is reserved).  The code instead
breaks the tie on the FIRST stored glyph (3 vs 2) and gives `[2,4]` id 1
and `[3,1]` id 2. -/
theorem classdef_tie_break_uses_first_glyph :
    (ClassDefBuilder2.new false).can_add [3, 1] = true ∧
    ((ClassDefBuilder2.new false).add [3, 1]).can_add [2, 4] = true ∧
    (((ClassDefBuilder2.new false).add [3, 1]).add [2, 4]).build.2 =
      [([2, 4], 1), ([3, 1], 2)] ∧
    [3, 1].minimum? = some 1 ∧ [2, 4].minimum? = some 2 := by
  decide

/-- The invariant maintained by `can_add`-guarded additions: the class set
has no duplicates, distinct classes are disjoint, and every class glyph is
registered in the glyph set. -/
structure ClassInv (b : ClassDefBuilder2) : Prop where
  nodup : b.classes.Nodup
  disj : ∀ c1 ∈ b.classes, ∀ c2 ∈ b.classes, c1 ≠ c2 → ∀ g ∈ c1, g ∉ c2
  cover : ∀ c ∈ b.classes, ∀ g ∈ c, g ∈ b.glyphs

theorem classInv_new (u0 : Bool) : ClassInv (ClassDefBuilder2.new u0) := by
  constructor <;> simp [ClassDefBuilder2.new]

theorem classInv_add {b : ClassDefBuilder2} {cls : List Nat}
    (hb : ClassInv b) (h : b.can_add cls = true) : ClassInv (b.add cls) := by
  by_cases hmem : cls ∈ b.classes
  · refine ⟨?_, ?_, ?_⟩ <;> simp only [ClassDefBuilder2.add, if_pos hmem]
    · exact hb.nodup
    · exact hb.disj
    · intro c hc g hg
      exact List.mem_append_left _ (hb.cover c hc g hg)
  · have hfresh : ∀ g ∈ cls, g ∉ b.glyphs := by
      rcases Bool.or_eq_true_iff.1 h with h1 | h2
      · exact absurd (of_decide_eq_true h1) hmem
      · intro g hg
        have := List.all_eq_true.1 h2 g hg
        simpa using this
    refine ⟨?_, ?_, ?_⟩ <;> simp only [ClassDefBuilder2.add, if_neg hmem]
    · simp [List.nodup_append, hb.nodup, hmem]
    · intro c1 hc1 c2 hc2 hne g hg
      rcases List.mem_append.1 hc1 with hc1 | hc1 <;>
        rcases List.mem_append.1 hc2 with hc2 | hc2
      · exact hb.disj c1 hc1 c2 hc2 hne g hg
      · have hc2' : c2 = cls := by simpa using hc2
        rw [hc2']
        intro hgc
        exact hfresh g hgc (hb.cover c1 hc1 g hg)
      · have hc1' : c1 = cls := by simpa using hc1
        rw [hc1'] at hg
        intro hgc
        exact hfresh g hg (hb.cover c2 hc2 g hgc)
      · have e1 : c1 = cls := by simpa using hc1
        have e2 : c2 = cls := by simpa using hc2
        exact absurd (e1.trans e2.symm) hne
    · intro c hc g hg
      rcases List.mem_append.1 hc with hc | hc
      · exact List.mem_append_left _ (hb.cover c hc g hg)
      · have e : c = cls := by simpa using hc
        rw [e] at hg
        exact List.mem_append_right _ hg

theorem permittedAdds_inv :
    ∀ (adds : List (List Nat)) (b0 b : ClassDefBuilder2), ClassInv b0 →
      permittedAdds b0 adds = some b →
      ClassInv b ∧ b.use_class_0 = b0.use_class_0 := by
  intro adds
  induction adds with
  | nil =>
    intro b0 b h0 h
    cases h
    exact ⟨h0, rfl⟩
  | cons cls rest ih =>
    intro b0 b h0 h
    unfold permittedAdds at h
    by_cases hc : b0.can_add cls = true
    · rw [if_pos hc] at h
      obtain ⟨hi, hu⟩ := ih _ _ (classInv_add h0 hc) h
      exact ⟨hi, hu⟩
    · rw [if_neg hc] at h
      cases h

theorem dedupAdjacent_of_nodup :
    ∀ (l : List (List Nat)), l.Nodup → dedupAdjacent l = l
  | [], _ => rfl
  | [_], _ => rfl
  | a :: b :: rest, h => by
    have hab : a ≠ b := by
      have := (List.nodup_cons.1 h).1
      simp only [List.mem_cons, not_or] at this
      exact this.1
    show (if a = b then dedupAdjacent (b :: rest)
      else a :: dedupAdjacent (b :: rest)) = a :: b :: rest
    rw [if_neg hab, dedupAdjacent_of_nodup (b :: rest) (List.nodup_cons.1 h).2]

theorem mem_assignIds :
    ∀ (l : List (List Nat)) (base : Nat) (c : List Nat) (i : Nat),
      ((c, i) ∈ assignIds base l ↔ ∃ j, l.get? j = some c ∧ i = base + j)
  | [], base, c, i => by simp [assignIds]
  | a :: rest, base, c, i => by
    show (c, i) ∈ (a, base) :: assignIds (base + 1) rest ↔ _
    simp only [List.mem_cons]
    constructor
    · rintro (h | h)
      · obtain ⟨e1, e2⟩ := Prod.mk.inj h
        exact ⟨0, by simp [e1], by omega⟩
      · obtain ⟨j, hj, hi⟩ := (mem_assignIds rest (base + 1) c i).1 h
        exact ⟨j + 1, by simpa using hj, by omega⟩
    · rintro ⟨j, hj, hi⟩
      cases j with
      | zero =>
        left
        have e : a = c := by simpa using hj
        subst e
        have e2 : i = base := by omega
        subst e2
        rfl
      | succ j =>
        right
        exact (mem_assignIds rest (base + 1) c i).2
          ⟨j, by simpa using hj, by omega⟩

theorem assignIds_map_snd :
    ∀ (l : List (List Nat)) (base : Nat),
      (assignIds base l).map Prod.snd = List.range' base l.length
  | [], _ => rfl
  | a :: rest, base => by
    show base :: (assignIds (base + 1) rest).map Prod.snd = _
    rw [assignIds_map_snd rest (base + 1)]
    simp [List.range'_succ]

theorem assignIds_length :
    ∀ (l : List (List Nat)) (base : Nat), (assignIds base l).length = l.length
  | [], _ => rfl
  | _ :: rest, base => by
    show (assignIds (base + 1) rest).length + 1 = _
    rw [assignIds_length rest (base + 1)]
    rfl

/-- C7 (amended): for every sequence of additions each permitted by
`can_add`, `build` assigns class ids in descending order of class size with
ties broken by the FIRST glyph id stored in the class (not the smallest —
`GlyphClass` is an order-preserving sequence and the key uses
`iter().next()`); ids are consecutive beginning at 1 when class 0 is
reserved and at 0 when it is declared for explicit use; and no glyph is
mapped to two distinct class ids. -/
theorem classdef_build_spec (u0 : Bool) (adds : List (List Nat))
    (b : ClassDefBuilder2)
    (hreach : permittedAdds (ClassDefBuilder2.new u0) adds = some b) :
    (∀ c1 i1 c2 i2, (c1, i1) ∈ b.build.2 → (c2, i2) ∈ b.build.2 → i1 < i2 →
      c2.length < c1.length ∨
        (c1.length = c2.length ∧ c1.headD 0 ≤ c2.headD 0)) ∧
    b.build.2.map Prod.snd =
      List.range' (if u0 then 0 else 1) b.build.2.length ∧
    (∀ g i1 i2, (g, i1) ∈ b.build.1 → (g, i2) ∈ b.build.1 → i1 = i2) := by
  obtain ⟨hinv, hu⟩ :=
    permittedAdds_inv adds _ b (classInv_new u0) hreach
  have hu' : b.use_class_0 = u0 := hu
  have hperm : List.Perm (List.insertionSort classLe b.classes) b.classes :=
    List.perm_insertionSort classLe b.classes
  have hsnodup : (List.insertionSort classLe b.classes).Nodup :=
    hperm.nodup_iff.2 hinv.nodup
  have hsorted : List.Sorted classLe (List.insertionSort classLe b.classes) :=
    List.sorted_insertionSort classLe b.classes
  have hdedup : dedupAdjacent (List.insertionSort classLe b.classes) =
      List.insertionSort classLe b.classes :=
    dedupAdjacent_of_nodup _ hsnodup
  have hbuild2 : b.build.2 =
      assignIds (if u0 then 0 else 1) (List.insertionSort classLe b.classes) := by
    show assignIds (if b.use_class_0 then 0 else 1)
      (dedupAdjacent (List.insertionSort classLe b.classes)) = _
    rw [hdedup, hu']
  have hbuild1 : b.build.1 =
      (assignIds (if u0 then 0 else 1)
        (List.insertionSort classLe b.classes)).bind
          fun ci => ci.1.map fun gid => (gid, ci.2) := by
    show ((assignIds (if b.use_class_0 then 0 else 1)
      (dedupAdjacent (List.insertionSort classLe b.classes))).bind
        fun ci => ci.1.map fun gid => (gid, ci.2)) = _
    rw [hdedup, hu']
  refine ⟨?_, ?_, ?_⟩
  · intro c1 i1 c2 i2 h1 h2 hlt
    rw [hbuild2] at h1 h2
    obtain ⟨j1, hj1, hi1⟩ := (mem_assignIds _ _ c1 i1).1 h1
    obtain ⟨j2, hj2, hi2⟩ := (mem_assignIds _ _ c2 i2).1 h2
    have hjlt : j1 < j2 := by omega
    obtain ⟨hl1, he1⟩ := List.get?_eq_some.1 hj1
    obtain ⟨hl2, he2⟩ := List.get?_eq_some.1 hj2
    have hflt : (⟨j1, hl1⟩ : Fin (List.insertionSort classLe b.classes).length) <
        ⟨j2, hl2⟩ := Fin.mk_lt_mk.2 hjlt
    have hrel := List.Sorted.rel_get_of_lt hsorted hflt
    rw [he1, he2] at hrel
    exact hrel
  · rw [hbuild2, assignIds_map_snd, assignIds_length]
  · intro g i1 i2 h1 h2
    rw [hbuild1] at h1 h2
    obtain ⟨⟨c1, k1⟩, hci1, hm1⟩ := List.mem_bind.1 h1
    obtain ⟨⟨c2, k2⟩, hci2, hm2⟩ := List.mem_bind.1 h2
    obtain ⟨g1, hg1, he1⟩ := List.mem_map.1 hm1
    obtain ⟨g2, hg2, he2⟩ := List.mem_map.1 hm2
    obtain ⟨e1a, e1b⟩ := Prod.mk.inj he1
    obtain ⟨e2a, e2b⟩ := Prod.mk.inj he2
    obtain ⟨j1, hj1, hi1⟩ := (mem_assignIds _ _ c1 k1).1 hci1
    obtain ⟨j2, hj2, hi2⟩ := (mem_assignIds _ _ c2 k2).1 hci2
    have hmem1 : c1 ∈ b.classes := hperm.subset (List.get?_mem hj1)
    have hmem2 : c2 ∈ b.classes := hperm.subset (List.get?_mem hj2)
    by_cases hceq : c1 = c2
    · rw [hceq] at hj1
      have hjj : j1 = j2 := by
        obtain ⟨hw, _⟩ := List.get?_eq_some.1 hj1
        exact List.get?_inj hw hsnodup (hj1.trans hj2.symm)
      omega
    · exact absurd (e2a ▸ hg2)
        (hinv.disj c1 hmem1 c2 hmem2 hceq g (e1a ▸ hg1))

/-- Witness for C7 (amended): the counterexample's two classes, added
through `permittedAdds`; the assigned ids are consecutive from 1. -/
theorem classdef_build_spec_witness :
    ∃ b, permittedAdds (ClassDefBuilder2.new false) [[3, 1], [2, 4]] = some b ∧
      b.build.2.map Prod.snd = List.range' 1 b.build.2.length := by
  refine ⟨_, rfl, ?_⟩
  exact (classdef_build_spec false [[3, 1], [2, 4]] _ rfl).2.1

/-! ## C6: the token tree and the source round-trip (token_tree.rs)

The tree and sink are translated from token_tree.rs.  The parser (the
`parse` module) and the cursor (`token_tree/cursor.rs`) are not among the
sources: the parser is modelled from the spec as an arbitrary sequence of
`TreeSink` events whose token lengths tile the source (§4.1/§4.2), and the
cursor traversal as the depth-first left-to-right token iteration behind
`Node::iter_tokens`. -/

/-- Rust `Node` / `Token` / `NodeOrToken` (token_tree.rs lines 16-48).  The
lazily-populated absolute-position cells and the derived
`rel_pos`/`text_len` fields are functions of the children and are not part
of the model. -/
inductive NodeOrToken where
  | node (kind : Kind) (children : List NodeOrToken) (error : Bool)
  | token (kind : Kind) (text : List Nat)

mutual

/-- The concatenated text of every token of a subtree, in cursor order
(modelled from the spec: `Node::iter_tokens` walks the leaves depth-first
left-to-right via the cursor of the absent token_tree/cursor.rs). -/
def treeText : NodeOrToken → List Nat
  | .token _ t => t
  | .node _ children _ => treeTextList children

/-- The concatenated token text of a forest, left to right. -/
def treeTextList : List NodeOrToken → List Nat
  | [] => []
  | c :: rest => treeText c ++ treeTextList rest

end

/-- Rust `TreeBuilder` (token_tree.rs lines 50-57): the stack of open parents
(kind and index of their first child) and the flat list of completed
children. -/
structure TreeBuilder where
  parents : List (Kind × Nat)
  children : List NodeOrToken

namespace TreeBuilder

/-- Rust `TreeBuilder::start_node` (token_tree.rs lines 200-203). -/
def start_node (b : TreeBuilder) (kind : Kind) : TreeBuilder :=
  {b with parents := b.parents ++ [(kind, b.children.length)]}

/-- Rust `TreeBuilder::push_raw` (token_tree.rs lines 210-212). -/
def push_raw (b : TreeBuilder) (item : NodeOrToken) : TreeBuilder :=
  {b with children := b.children ++ [item]}

/-- Rust `TreeBuilder::token` (token_tree.rs lines 205-208). -/
def token (b : TreeBuilder) (kind : Kind) (text : List Nat) : TreeBuilder :=
  b.push_raw (.token kind text)

/-- Rust `TreeBuilder::finish_node` (token_tree.rs lines 214-218): pop the
innermost parent (`unwrap` → `none` with no open parent), gather the
children pushed since it was opened into a new node (`split_off` panics —
`none` — if the recorded index exceeds the child count), and push it. -/
def finish_node (b : TreeBuilder) (error : Bool) : Option TreeBuilder :=
  match b.parents.getLast? with
  | none => none
  | some kf =>
    if kf.2 ≤ b.children.length then
      some { parents := b.parents.dropLast,
             children := b.children.take kf.2 ++
               [NodeOrToken.node kf.1 (b.children.drop kf.2) error] }
    else none

/-- Rust `TreeBuilder::finish` (token_tree.rs lines 220-223): exactly one child
must remain and it must be a node (`into_node().unwrap()`). -/
def finish (b : TreeBuilder) : Option NodeOrToken :=
  match b.children with
  | [NodeOrToken.node k cs e] => some (NodeOrToken.node k cs e)
  | _ => none

end TreeBuilder

/-- The diagnostics `try_split_range` can produce (token_tree.rs lines 337
and 355-360), carrying their format arguments. -/
inductive RangeDiagnostic where
  | multipleRanges (text : List Nat) (firstIdx secondIdx : Nat)
  | unknownGlyph (text : List Nat)

/-- Modelled from the spec: `SyntaxError` (the parse module is absent):
a "(source-range, message) pair" (§7). -/
structure SyntaxError where
  message : RangeDiagnostic
  range : Nat × Nat

/-- Rust `AstSink` (token_tree.rs lines 59-66).  The glyph map is the host's
`contains` test (§6). -/
structure AstSink where
  text : List Nat
  text_pos : Nat
  builder : TreeBuilder
  glyph_map : Option (List Nat → Bool)
  errors : List SyntaxError
  cur_node_contains_error : Bool

/-- Rust `tail.trim_start_matches('-')` (token_tree.rs lines 333, 351). -/
def trimStartHyphens (l : List Nat) : List Nat := l.dropWhile (· == 45)

/-- The candidate split points of `try_split_range` (token_tree.rs lines
327-331): every index holding a hyphen byte. -/
def hyphenPositions (text : List Nat) : List Nat :=
  (List.range text.length).filter fun i => text.getD i 0 == 45

/-- The `for idx in ..` loop of `try_split_range` (token_tree.rs lines
327-341): record a valid split point; a second valid split point is an
ambiguity error. -/
def trySplitLoop (gm : List Nat → Bool) (text : List Nat) :
    List Nat → Option Nat → Except RangeDiagnostic (Option Nat)
  | [], solution => .ok solution
  | idx :: rest, solution =>
    if gm (text.take idx) && gm (trimStartHyphens (text.drop idx)) then
      match solution with
      | some prev => .error (.multipleRanges text prev idx)
      | none => trySplitLoop gm text rest (some idx)
    else trySplitLoop gm text rest solution

/-- Rust `try_split_range` (token_tree.rs lines 322-361): try every hyphen as a
split point; exactly one valid split yields a `GlyphRange` node with three
tokens (head name, literal hyphen, tail name with ALL its leading hyphens
stripped); zero or several valid splits yield diagnostics.  The source
builds the node through a fresh `TreeBuilder`; that builder sequence
produces exactly this node — see `try_split_range_builder_eq`. -/
def try_split_range (gm : List Nat → Bool) (text : List Nat) :
    Except RangeDiagnostic NodeOrToken :=
  match trySplitLoop gm text (hyphenPositions text) none with
  | .error e => .error e
  | .ok none => .error (.unknownGlyph text)
  | .ok (some idx) =>
    .ok (NodeOrToken.node Kind.glyphRange
      [NodeOrToken.token Kind.glyphName (text.take idx),
       NodeOrToken.token Kind.hyphen [45],
       NodeOrToken.token Kind.glyphName (trimStartHyphens (text.drop idx))]
      false)

/-- The node literal in `try_split_range` is exactly what the source's
`TreeBuilder` call sequence (token_tree.rs lines 345-353) produces. -/
theorem try_split_range_builder_eq (head tail : List Nat) :
    Option.bind
      (((((TreeBuilder.start_node ⟨[], []⟩ Kind.glyphRange).token
        Kind.glyphName head).token Kind.hyphen [45]).token
        Kind.glyphName (trimStartHyphens tail)).finish_node false)
      TreeBuilder.finish =
    some (NodeOrToken.node Kind.glyphRange
      [NodeOrToken.token Kind.glyphName head,
       NodeOrToken.token Kind.hyphen [45],
       NodeOrToken.token Kind.glyphName (trimStartHyphens tail)] false) := by
  rfl

namespace AstSink

/-- Rust `AstSink::new` (token_tree.rs lines 92-101). -/
def new (text : List Nat) (glyph_map : Option (List Nat → Bool)) : AstSink :=
  ⟨text, 0, ⟨[], []⟩, glyph_map, [], false⟩

/-- Rust `AstSink::error` (token_tree.rs lines 85-88). -/
def error (sink : AstSink) (e : SyntaxError) : AstSink :=
  {sink with errors := sink.errors ++ [e], cur_node_contains_error := true}

/-- Rust `AstSink::validate_token` (token_tree.rs lines 112-128): a
glyph-name-or-range token, with a glyph map available, becomes a plain
glyph-name token when the map knows the whole text, a synthesized
`GlyphRange` node when it splits, and otherwise stays as-is with a recorded
diagnostic. -/
def validate_token (sink : AstSink) (kind : Kind) (text : List Nat) :
    AstSink × NodeOrToken :=
  if kind == Kind.glyphNameOrRange then
    match sink.glyph_map with
    | some map =>
      if map text then (sink, .token Kind.glyphName text)
      else
        match try_split_range map text with
        | .ok node => (sink, node)
        | .error message =>
          (sink.error ⟨message, (sink.text_pos, sink.text_pos + text.length)⟩,
            .token kind text)
    | none => (sink, .token kind text)
  else (sink, .token kind text)

/-- Rust `AstSink::token` (token_tree.rs lines 69-74): slice the token's text,
validate, push, advance.  `none` models the panic of an out-of-range slice
`&self.text[self.text_pos..self.text_pos + len]`. -/
def token (sink : AstSink) (kind : Kind) (len : Nat) : Option AstSink :=
  if sink.text_pos + len ≤ sink.text.length then
    let va := sink.validate_token kind ((sink.text.drop sink.text_pos).take len)
    let s1 := va.1
    let b2 := s1.builder.push_raw va.2
    some {s1 with builder := b2, text_pos := s1.text_pos + len}
  else none

/-- Rust `AstSink::start_node` (token_tree.rs lines 76-78). -/
def start_node (sink : AstSink) (kind : Kind) : AstSink :=
  {sink with builder := sink.builder.start_node kind}

/-- Rust `AstSink::finish_node` (token_tree.rs lines 80-83). -/
def finish_node (sink : AstSink) : Option AstSink :=
  (sink.builder.finish_node sink.cur_node_contains_error).map fun b =>
    {sink with builder := b, cur_node_contains_error := false}

/-- Rust `AstSink::finish` (token_tree.rs lines 103-106), reduced to the root
node (the accumulated errors are carried alongside in the source). -/
def finish (sink : AstSink) : Option NodeOrToken := sink.builder.finish

end AstSink

/-- Modelled from the spec: one parser callback through the `TreeSink`
interface (§4.2: `start_node(kind)`, `token(kind, len)`, `finish_node`,
plus error reports; the parse module is absent from the sources). -/
inductive SinkEvent where
  | tok (kind : Kind) (len : Nat)
  | startNode (kind : Kind)
  | finishNode
  | errorReport (e : SyntaxError)

/-- Modelled from the spec: a parse is a sequence of `TreeSink` events
driven by the parser; running them threads the sink through each callback. -/
def runSink (sink : AstSink) : List SinkEvent → Option AstSink
  | [] => some sink
  | ev :: rest =>
    (match ev with
     | .tok kind len => sink.token kind len
     | .startNode kind => some (sink.start_node kind)
     | .finishNode => sink.finish_node
     | .errorReport e => some (sink.error e)).bind
      fun sink2 => runSink sink2 rest

/-- The modelled parse pipeline: run the events into a fresh sink and take
the finished root node. -/
def parseModel (text : List Nat) (gm : Option (List Nat → Bool))
    (events : List SinkEvent) : Option NodeOrToken :=
  (runSink (AstSink.new text gm) events).bind AstSink.finish

/-- Total byte length of the token events (the spec's tiling contract:
token lengths cover the entire input with no gaps, §4.1). -/
def tokLenSum : List SinkEvent → Nat
  | [] => 0
  | .tok _ len :: rest => len + tokLenSum rest
  | _ :: rest => tokLenSum rest

/-- Two consecutive hyphen bytes somewhere in the list. -/
def hasDoubleHyphen : List Nat → Bool
  | [] => false
  | [_] => false
  | a :: b :: rest => (a == 45 && b == 45) || hasDoubleHyphen (b :: rest)

/-- The amended claim's side condition: no glyph-name-or-range token's text
contains two consecutive hyphens (token positions are tracked through the
token lengths). -/
def eventSlicesOk (text : List Nat) : List SinkEvent → Nat → Bool
  | [], _ => true
  | .tok kind len :: rest, pos =>
    (!(kind == Kind.glyphNameOrRange) ||
      !hasDoubleHyphen ((text.drop pos).take len)) &&
      eventSlicesOk text rest (pos + len)
  | _ :: rest, pos => eventSlicesOk text rest pos

/-- C6 (counterexample): source `"a--b"` (bytes `[97,45,45,98]`) with the
glyph map `{a, b}` and a parse whose token lengths tile the source and
whose sink finishes with a root node.  The identifier reaches the sink as
one glyph-name-or-range token (hyphens are identifier bytes, §4.1); the map
does not contain `"a--b"`, the only valid split is at the first hyphen, and
`trim_start_matches('-')` strips BOTH hyphens of the tail — the tree reads
`"a-b"`, one byte short of the source. -/
theorem round_trip_drops_extra_hyphen :
    (parseModel [97, 45, 45, 98] (some fun s => s == [97] || s == [98])
      [SinkEvent.startNode Kind.sourceFile,
       SinkEvent.tok Kind.glyphNameOrRange 4,
       SinkEvent.finishNode]).map treeText =
      some [97, 45, 98] ∧
    tokLenSum
      [SinkEvent.startNode Kind.sourceFile,
       SinkEvent.tok Kind.glyphNameOrRange 4,
       SinkEvent.finishNode] = 4 ∧
    [97, 45, 98] ≠ [97, 45, 45, 98] := by
  refine ⟨rfl, rfl, by decide⟩

theorem treeTextList_append (l1 l2 : List NodeOrToken) :
    treeTextList (l1 ++ l2) = treeTextList l1 ++ treeTextList l2 := by
  induction l1 with
  | nil => rfl
  | cons c rest ih => simp [treeTextList, ih, List.append_assoc]

theorem hasDoubleHyphen_tail {a : Nat} {rest : List Nat}
    (h : hasDoubleHyphen (a :: rest) = false) :
    hasDoubleHyphen rest = false := by
  cases rest with
  | nil => rfl
  | cons b r2 =>
    have h2 := h
    simp only [hasDoubleHyphen, Bool.or_eq_false_iff] at h2
    exact h2.2

theorem getD_no_double {s : List Nat} {i : Nat}
    (hnd : hasDoubleHyphen s = false) (hi : s.getD i 0 = 45) :
    s.getD (i + 1) 0 ≠ 45 := by
  induction s generalizing i with
  | nil => simp [List.getD] at hi
  | cons a rest ih =>
    cases i with
    | zero =>
      cases rest with
      | nil => simp [List.getD]
      | cons b r2 =>
        simp only [List.getD_cons_zero] at hi
        intro hb
        simp only [List.getD_cons_succ, List.getD_cons_zero] at hb
        simp only [hasDoubleHyphen, hi, hb, beq_self_eq_true, Bool.and_self,
          Bool.true_or] at hnd
        exact absurd hnd (by decide)
    | succ j =>
      have htail := hasDoubleHyphen_tail hnd
      have hi' : rest.getD j 0 = 45 := by simpa using hi
      simpa using ih htail hi'

theorem trySplitLoop_ok_mem (gm : List Nat → Bool) (text : List Nat) :
    ∀ (l : List Nat) (sol : Option Nat) (idx : Nat),
      trySplitLoop gm text l sol = .ok (some idx) →
      sol = some idx ∨ idx ∈ l := by
  intro l
  induction l with
  | nil =>
    intro sol idx h
    left
    exact Except.ok.inj h
  | cons a rest ih =>
    intro sol idx h
    unfold trySplitLoop at h
    by_cases hg : (gm (text.take a) && gm (trimStartHyphens (text.drop a))) = true
    · rw [if_pos hg] at h
      cases sol with
      | some prev => cases h
      | none =>
        rcases ih _ idx h with h1 | h1
        · exact Or.inr (by simp [Option.some.inj h1])
        · exact Or.inr (List.mem_cons_of_mem _ h1)
    · rw [if_neg hg] at h
      rcases ih _ _ h with h1 | h1
      · exact Or.inl h1
      · exact Or.inr (List.mem_cons_of_mem _ h1)

theorem try_split_range_ok_text (gm : List Nat → Bool) (s : List Nat)
    (node : NodeOrToken) (h : try_split_range gm s = .ok node)
    (hnd : hasDoubleHyphen s = false) : treeText node = s := by
  unfold try_split_range at h
  cases hloop : trySplitLoop gm s (hyphenPositions s) none with
  | error e => rw [hloop] at h; cases h
  | ok sol =>
    rw [hloop] at h
    cases sol with
    | none => cases h
    | some idx =>
      obtain rfl := (Except.ok.inj h).symm
      have hidx : idx ∈ hyphenPositions s := by
        rcases trySplitLoop_ok_mem gm s _ none idx hloop with h1 | h1
        · cases h1
        · exact h1
      have hmem : idx < s.length ∧ s[idx]?.getD 0 = 45 := by
        simpa [hyphenPositions] using hidx
      have hlt : idx < s.length := hmem.1
      have h45 : s.getD idx 0 = 45 := by
        rw [List.getD_eq_getD_get?]
        simpa using hmem.2
      have hdrop : s.drop idx = 45 :: s.drop (idx + 1) := by
        rw [List.drop_eq_getElem_cons hlt]
        have : s[idx] = 45 := (List.getD_eq_getElem s 0 hlt).symm.trans h45
        rw [this]
      have hnext : s.getD (idx + 1) 0 ≠ 45 := getD_no_double hnd h45
      have htrim : trimStartHyphens (s.drop idx) = s.drop (idx + 1) := by
        rw [hdrop]
        unfold trimStartHyphens
        rw [List.dropWhile_cons]
        simp only [beq_self_eq_true, if_true]
        cases hd : s.drop (idx + 1) with
        | nil => rfl
        | cons b r =>
          have hb : s.getD (idx + 1) 0 = b := by
            have hq : (s.drop (idx + 1)).get? 0 = s.get? (idx + 1) := by
              rw [List.get?_drop]
            rw [hd] at hq
            rw [List.getD_eq_getD_get?, ← hq]
            rfl
          rw [List.dropWhile_cons]
          have hbne : (b == 45) = false := by
            rw [← hb]
            simpa using hnext
          rw [hbne]
          simp
      show treeTextList _ = s
      simp only [treeTextList, treeText, htrim, List.append_nil]
      conv_rhs => rw [← List.take_append_drop idx s]
      rw [hdrop]
      simp

theorem validate_token_spec (sink : AstSink) (kind : Kind) (s : List Nat)
    (hok : kind = Kind.glyphNameOrRange → hasDoubleHyphen s = false) :
    treeText (sink.validate_token kind s).2 = s ∧
    (sink.validate_token kind s).1.text = sink.text ∧
    (sink.validate_token kind s).1.text_pos = sink.text_pos ∧
    (sink.validate_token kind s).1.builder = sink.builder := by
  by_cases hk : (kind == Kind.glyphNameOrRange) = true
  · have hnd := hok (by simpa using hk)
    cases hgm : sink.glyph_map with
    | none => simp [AstSink.validate_token, hk, hgm, treeText]
    | some map =>
      by_cases hc : map s = true
      · simp [AstSink.validate_token, hk, hgm, hc, treeText]
      · cases hsplit : try_split_range map s with
        | error e =>
          simp [AstSink.validate_token, hk, hgm, hc, hsplit, AstSink.error,
            treeText]
        | ok nodev =>
          have hrt := try_split_range_ok_text map s nodev hsplit hnd
          simp [AstSink.validate_token, hk, hgm, hc, hsplit, hrt]
  · simp [AstSink.validate_token, hk, treeText]

theorem token_spec (sink : AstSink) (kind : Kind) (len : Nat) (s3 : AstSink)
    (h : sink.token kind len = some s3)
    (hok : kind = Kind.glyphNameOrRange →
      hasDoubleHyphen ((sink.text.drop sink.text_pos).take len) = false) :
    s3.text = sink.text ∧
    s3.text_pos = sink.text_pos + len ∧
    sink.text_pos + len ≤ sink.text.length ∧
    treeTextList s3.builder.children =
      treeTextList sink.builder.children ++
        (sink.text.drop sink.text_pos).take len := by
  unfold AstSink.token at h
  by_cases hle : sink.text_pos + len ≤ sink.text.length
  · rw [if_pos hle] at h
    obtain ⟨hvt, hvtext, hvpos, hvb⟩ := validate_token_spec sink kind
      ((sink.text.drop sink.text_pos).take len) hok
    obtain rfl := (Option.some.inj h).symm
    refine ⟨hvtext, by rw [hvpos], hle, ?_⟩
    show treeTextList (TreeBuilder.push_raw _ _).children = _
    unfold TreeBuilder.push_raw
    rw [treeTextList_append, hvb]
    simp only [treeTextList, List.append_nil]
    rw [hvt]
  · rw [if_neg hle] at h
    cases h

theorem finish_node_text (b : TreeBuilder) (e : Bool) (b2 : TreeBuilder)
    (h : b.finish_node e = some b2) :
    treeTextList b2.children = treeTextList b.children := by
  unfold TreeBuilder.finish_node at h
  cases hl : b.parents.getLast? with
  | none => rw [hl] at h; cases h
  | some kf =>
    rw [hl] at h
    dsimp only at h
    by_cases hle : kf.2 ≤ b.children.length
    · rw [if_pos hle] at h
      obtain rfl := (Option.some.inj h).symm
      show treeTextList (b.children.take kf.2 ++
        [NodeOrToken.node kf.1 (b.children.drop kf.2) e]) = _
      rw [treeTextList_append]
      simp only [treeTextList, treeText, List.append_nil]
      rw [← treeTextList_append, List.take_append_drop]
    · rw [if_neg hle] at h
      cases h

theorem runSink_inv (text : List Nat) :
    ∀ (events : List SinkEvent) (sink sink2 : AstSink),
      sink.text = text →
      treeTextList sink.builder.children = text.take sink.text_pos →
      eventSlicesOk text events sink.text_pos = true →
      runSink sink events = some sink2 →
      treeTextList sink2.builder.children = text.take sink2.text_pos ∧
      sink2.text_pos = sink.text_pos + tokLenSum events := by
  intro events
  induction events with
  | nil =>
    intro sink sink2 htext hcc _ hrun
    obtain rfl := (Option.some.inj hrun).symm
    exact ⟨hcc, by simp [tokLenSum]⟩
  | cons ev rest ih =>
    intro sink sink2 htext hcc hok hrun
    unfold runSink at hrun
    cases ev with
    | tok kind len =>
      dsimp only at hrun
      cases hstep : sink.token kind len with
      | none => rw [hstep] at hrun; cases hrun
      | some s3 =>
        rw [hstep] at hrun
        simp only [Option.some_bind] at hrun
        have hok' := hok
        unfold eventSlicesOk at hok'
        rw [Bool.and_eq_true] at hok'
        obtain ⟨hok1, hokrest⟩ := hok'
        have hokh : kind = Kind.glyphNameOrRange →
            hasDoubleHyphen ((sink.text.drop sink.text_pos).take len) = false := by
          intro hkk
          rcases Bool.or_eq_true_iff.1 hok1 with h1 | h1
          · exfalso; rw [hkk] at h1; simp at h1
          · rw [htext]; simpa using h1
        obtain ⟨h3text, h3pos, h3le, h3cc⟩ := token_spec sink kind len s3 hstep hokh
        have hcc3 : treeTextList s3.builder.children = text.take s3.text_pos := by
          rw [h3cc, hcc, h3pos, htext, ← List.take_add]
        have hok3 : eventSlicesOk text rest s3.text_pos = true := by
          rw [h3pos]; exact hokrest
        obtain ⟨hfin, hpos⟩ := ih s3 sink2 (h3text.trans htext) hcc3 hok3 hrun
        refine ⟨hfin, ?_⟩
        have hsum : tokLenSum (SinkEvent.tok kind len :: rest) =
            len + tokLenSum rest := rfl
        rw [hpos, h3pos, hsum]
        omega
    | startNode kind =>
      dsimp only at hrun
      simp only [Option.some_bind] at hrun
      have hok' : eventSlicesOk text rest (sink.start_node kind).text_pos = true := hok
      obtain ⟨hfin, hpos⟩ := ih (sink.start_node kind) sink2 htext hcc hok' hrun
      exact ⟨hfin, by rw [hpos]; rfl⟩
    | finishNode =>
      dsimp only at hrun
      cases hstep : sink.finish_node with
      | none => rw [hstep] at hrun; cases hrun
      | some s3 =>
        rw [hstep] at hrun
        simp only [Option.some_bind] at hrun
        unfold AstSink.finish_node at hstep
        cases hb : sink.builder.finish_node sink.cur_node_contains_error with
        | none => rw [hb] at hstep; cases hstep
        | some b2 =>
          rw [hb] at hstep
          simp only [Option.map_some'] at hstep
          have h3text : s3.text = sink.text := by
            rw [← Option.some.inj hstep]
          have h3pos : s3.text_pos = sink.text_pos := by
            rw [← Option.some.inj hstep]
          have h3b : s3.builder = b2 := by
            rw [← Option.some.inj hstep]
          have hcc3 : treeTextList s3.builder.children =
              text.take s3.text_pos := by
            rw [h3b, h3pos, finish_node_text _ _ _ hb, hcc]
          have hok3 : eventSlicesOk text rest s3.text_pos = true := by
            rw [h3pos]; exact hok
          obtain ⟨hfin, hpos⟩ := ih s3 sink2 (h3text.trans htext) hcc3 hok3 hrun
          refine ⟨hfin, ?_⟩
          rw [hpos, h3pos]
          rfl
    | errorReport e =>
      dsimp only at hrun
      simp only [Option.some_bind] at hrun
      obtain ⟨hfin, hpos⟩ := ih (sink.error e) sink2 htext hcc hok hrun
      exact ⟨hfin, by rw [hpos]; rfl⟩

/-- C6 (amended): for every source, optional glyph map and completed parse
(the sink runs to the end, its token lengths tile the whole source, and
`finish` yields the root node), concatenating the text of every token of
the tree in cursor order reproduces the source byte-for-byte — provided no
glyph-name-or-range token's text contains two consecutive hyphens.  (When
one does, the synthesized GlyphRange collapses the hyphen run after the
split point to the single literal hyphen, because the tail is rebuilt with
`trim_start_matches('-')`; see the counterexample.) -/
theorem parse_round_trip (text : List Nat) (gm : Option (List Nat → Bool))
    (events : List SinkEvent) (root : NodeOrToken)
    (hroot : parseModel text gm events = some root)
    (hok : eventSlicesOk text events 0 = true)
    (hlen : tokLenSum events = text.length) :
    treeText root = text := by
  unfold parseModel at hroot
  cases hr : runSink (AstSink.new text gm) events with
  | none => rw [hr] at hroot; cases hroot
  | some sink2 =>
    rw [hr] at hroot
    simp only [Option.some_bind] at hroot
    obtain ⟨hcc, hpos⟩ :=
      runSink_inv text events (AstSink.new text gm) sink2 rfl rfl hok hr
    have hposlen : sink2.text_pos = text.length := by
      rw [hpos, hlen]
      show 0 + text.length = text.length
      omega
    unfold AstSink.finish TreeBuilder.finish at hroot
    split at hroot
    · next k cs e heq =>
      obtain rfl := (Option.some.inj hroot).symm
      have : treeTextList sink2.builder.children =
          treeText (NodeOrToken.node k cs e) := by
        rw [heq]
        simp [treeTextList]
      rw [← this, hcc, hposlen, List.take_length]
    · cases hroot

/-- Witness for C6 (amended): source `"a-b"` with glyph map `{a, b}`; the
glyph-name-or-range token splits into a GlyphRange and the tree
concatenates back to the source. -/
theorem parse_round_trip_witness :
    (parseModel [97, 45, 98] (some fun s => s == [97] || s == [98])
      [SinkEvent.startNode Kind.sourceFile,
       SinkEvent.tok Kind.glyphNameOrRange 3,
       SinkEvent.finishNode]).map treeText = some [97, 45, 98] := by
  have hp : parseModel [97, 45, 98] (some fun s => s == [97] || s == [98])
      [SinkEvent.startNode Kind.sourceFile,
       SinkEvent.tok Kind.glyphNameOrRange 3,
       SinkEvent.finishNode] =
      some (NodeOrToken.node Kind.sourceFile
        [NodeOrToken.node Kind.glyphRange
          [NodeOrToken.token Kind.glyphName [97],
           NodeOrToken.token Kind.hyphen [45],
           NodeOrToken.token Kind.glyphName [98]] false] false) := rfl
  rw [hp, Option.map_some']
  exact congrArg some (parse_round_trip [97, 45, 98]
    (some fun s => s == [97] || s == [98])
    [SinkEvent.startNode Kind.sourceFile,
     SinkEvent.tok Kind.glyphNameOrRange 3,
     SinkEvent.finishNode] _ hp rfl rfl)

end FeaRs
